import Mathlib

/-!
# Verification of the rarimo/solana-bridge-program core

A shallow embedding, in Lean 4, of the on-chain core of the Solana token
bridge (bridge state machine, authorization codec and Merkle/signature
verifier, commission engine), together with theorems settling the claims
of the natural-language specification against the code.

Conventions of the embedding:

* Rust byte strings and arrays are Lean lists of bytes, with a byte a
  value of type Fin 256.  Rust u64 values are Nat, reduced mod 2^64 at
  the points where the source can overflow.
* keccak-256 (the legacy, pre-NIST padding variant computed by
  solana_program::keccak::hash) is implemented executably below, so that
  theorems about concrete hashes are settled by kernel evaluation.  It is
  validated against published test vectors (see keccak256_empty_vector).
* Host-chain facilities that the core merely consumes (PDA derivation,
  secp256k1 recovery, rent, the SPL token / metadata programs invoked by
  CPI) are supplied by an explicit Env record of oracles, quantified over
  in the theorems and instantiated concretely in witnesses.
* Fallible Rust code returning ProgramResult becomes Except Err with an
  explicit error type.  A whole instruction is modelled transactionally:
  an error result means the runtime rolls back every account mutation, so
  the pre-state is retained unchanged.
-/

set_option linter.unusedVariables false

abbrev Byte := Fin 256

abbrev Bytes := List Byte

/-! ## Keccak-256 (solana_program::keccak::hash)

Keccak-f[1600] on 25 lanes of 64 bits, rate 1088, legacy multi-rate
padding with domain byte 0x01.  Lanes are Nat values kept below 2^64. -/

def U64MAX : Nat := 18446744073709551615

def U64MOD : Nat := 18446744073709551616

def rotl64 (x n : Nat) : Nat :=
  ((x <<< n) % U64MOD) ||| (x >>> (64 - n))

def not64 (a : Nat) : Nat := a ^^^ U64MAX

structure KState where
  (s0 s1 s2 s3 s4 s5 s6 s7 s8 s9 s10 s11 s12 : Nat)
  (s13 s14 s15 s16 s17 s18 s19 s20 s21 s22 s23 s24 : Nat)

def KState.zero : KState :=
  ⟨0,0,0,0,0, 0,0,0,0,0, 0,0,0,0,0, 0,0,0,0,0, 0,0,0,0,0⟩

/-- One Keccak-f round: theta, rho, pi, chi, iota.  Lane i holds column
x = i % 5, row y = i / 5; the rho/pi destination of lane (x,y) is lane
(y, (2x+3y) % 5) with the standard rotation offsets. -/
def keccakRound (rc : Nat) (s : KState) : KState :=
  let c0 := s.s0 ^^^ s.s5 ^^^ s.s10 ^^^ s.s15 ^^^ s.s20
  let c1 := s.s1 ^^^ s.s6 ^^^ s.s11 ^^^ s.s16 ^^^ s.s21
  let c2 := s.s2 ^^^ s.s7 ^^^ s.s12 ^^^ s.s17 ^^^ s.s22
  let c3 := s.s3 ^^^ s.s8 ^^^ s.s13 ^^^ s.s18 ^^^ s.s23
  let c4 := s.s4 ^^^ s.s9 ^^^ s.s14 ^^^ s.s19 ^^^ s.s24
  let d0 := c4 ^^^ rotl64 c1 1
  let d1 := c0 ^^^ rotl64 c2 1
  let d2 := c1 ^^^ rotl64 c3 1
  let d3 := c2 ^^^ rotl64 c4 1
  let d4 := c3 ^^^ rotl64 c0 1
  let a0 := s.s0 ^^^ d0
  let a1 := s.s1 ^^^ d1
  let a2 := s.s2 ^^^ d2
  let a3 := s.s3 ^^^ d3
  let a4 := s.s4 ^^^ d4
  let a5 := s.s5 ^^^ d0
  let a6 := s.s6 ^^^ d1
  let a7 := s.s7 ^^^ d2
  let a8 := s.s8 ^^^ d3
  let a9 := s.s9 ^^^ d4
  let a10 := s.s10 ^^^ d0
  let a11 := s.s11 ^^^ d1
  let a12 := s.s12 ^^^ d2
  let a13 := s.s13 ^^^ d3
  let a14 := s.s14 ^^^ d4
  let a15 := s.s15 ^^^ d0
  let a16 := s.s16 ^^^ d1
  let a17 := s.s17 ^^^ d2
  let a18 := s.s18 ^^^ d3
  let a19 := s.s19 ^^^ d4
  let a20 := s.s20 ^^^ d0
  let a21 := s.s21 ^^^ d1
  let a22 := s.s22 ^^^ d2
  let a23 := s.s23 ^^^ d3
  let a24 := s.s24 ^^^ d4
  let b0 := a0
  let b10 := rotl64 a1 1
  let b20 := rotl64 a2 62
  let b5 := rotl64 a3 28
  let b15 := rotl64 a4 27
  let b16 := rotl64 a5 36
  let b1 := rotl64 a6 44
  let b11 := rotl64 a7 6
  let b21 := rotl64 a8 55
  let b6 := rotl64 a9 20
  let b7 := rotl64 a10 3
  let b17 := rotl64 a11 10
  let b2 := rotl64 a12 43
  let b12 := rotl64 a13 25
  let b22 := rotl64 a14 39
  let b23 := rotl64 a15 41
  let b8 := rotl64 a16 45
  let b18 := rotl64 a17 15
  let b3 := rotl64 a18 21
  let b13 := rotl64 a19 8
  let b14 := rotl64 a20 18
  let b24 := rotl64 a21 2
  let b9 := rotl64 a22 61
  let b19 := rotl64 a23 56
  let b4 := rotl64 a24 14
  let e0 := b0 ^^^ (not64 b1 &&& b2)
  let e1 := b1 ^^^ (not64 b2 &&& b3)
  let e2 := b2 ^^^ (not64 b3 &&& b4)
  let e3 := b3 ^^^ (not64 b4 &&& b0)
  let e4 := b4 ^^^ (not64 b0 &&& b1)
  let e5 := b5 ^^^ (not64 b6 &&& b7)
  let e6 := b6 ^^^ (not64 b7 &&& b8)
  let e7 := b7 ^^^ (not64 b8 &&& b9)
  let e8 := b8 ^^^ (not64 b9 &&& b5)
  let e9 := b9 ^^^ (not64 b5 &&& b6)
  let e10 := b10 ^^^ (not64 b11 &&& b12)
  let e11 := b11 ^^^ (not64 b12 &&& b13)
  let e12 := b12 ^^^ (not64 b13 &&& b14)
  let e13 := b13 ^^^ (not64 b14 &&& b10)
  let e14 := b14 ^^^ (not64 b10 &&& b11)
  let e15 := b15 ^^^ (not64 b16 &&& b17)
  let e16 := b16 ^^^ (not64 b17 &&& b18)
  let e17 := b17 ^^^ (not64 b18 &&& b19)
  let e18 := b18 ^^^ (not64 b19 &&& b15)
  let e19 := b19 ^^^ (not64 b15 &&& b16)
  let e20 := b20 ^^^ (not64 b21 &&& b22)
  let e21 := b21 ^^^ (not64 b22 &&& b23)
  let e22 := b22 ^^^ (not64 b23 &&& b24)
  let e23 := b23 ^^^ (not64 b24 &&& b20)
  let e24 := b24 ^^^ (not64 b20 &&& b21)
  ⟨e0 ^^^ rc, e1, e2, e3, e4, e5, e6, e7, e8, e9, e10, e11, e12,
   e13, e14, e15, e16, e17, e18, e19, e20, e21, e22, e23, e24⟩

def keccakRC : List Nat :=
  [1, 32898, 9223372036854808714,
   9223372039002292224, 32907, 2147483649,
   9223372039002292353, 9223372036854808585, 138,
   136, 2147516425, 2147483658,
   2147516555, 9223372036854775947, 9223372036854808713,
   9223372036854808579, 9223372036854808578, 9223372036854775936,
   32778, 9223372039002259466, 9223372039002292353,
   9223372036854808704, 2147483649, 9223372039002292232]

def keccakF (s : KState) : KState :=
  keccakRC.foldl (fun st rc => keccakRound rc st) s

/-- Little-endian packing of (up to) 8 bytes into one 64-bit lane. -/
def laneOfBytes (bs : Bytes) : Nat :=
  bs.foldr (fun b acc => b.val + 256 * acc) 0

def byteOfNat (n : Nat) : Byte := ⟨n % 256, Nat.mod_lt _ (by decide)⟩

/-- The low k bytes of a lane, little-endian. -/
def laneToBytes (k : Nat) (x : Nat) : Bytes :=
  (List.range k).map (fun i => byteOfNat (x >>> (8 * i)))

/-- Keccak multi-rate padding for rate 136 with domain byte 0x01
(the legacy Keccak-256 padding used by tiny-keccak's Keccak::v256). -/
def keccakPad (m : Bytes) : Bytes :=
  let padlen := 136 - m.length % 136
  if padlen == 1 then m ++ [⟨0x81, by decide⟩]
  else m ++ ⟨0x01, by decide⟩ :: (List.replicate (padlen - 2) ⟨0, by decide⟩ ++ [⟨0x80, by decide⟩])

/-- XOR one 136-byte block into the first 17 lanes and permute. -/
def absorbBlock (s : KState) (blk : Bytes) : KState :=
  let l := fun i => laneOfBytes ((blk.drop (8 * i)).take 8)
  keccakF ⟨s.s0 ^^^ l 0, s.s1 ^^^ l 1, s.s2 ^^^ l 2, s.s3 ^^^ l 3, s.s4 ^^^ l 4,
           s.s5 ^^^ l 5, s.s6 ^^^ l 6, s.s7 ^^^ l 7, s.s8 ^^^ l 8, s.s9 ^^^ l 9,
           s.s10 ^^^ l 10, s.s11 ^^^ l 11, s.s12 ^^^ l 12, s.s13 ^^^ l 13, s.s14 ^^^ l 14,
           s.s15 ^^^ l 15, s.s16 ^^^ l 16, s.s17, s.s18, s.s19, s.s20, s.s21, s.s22, s.s23, s.s24⟩

/-- Split a padded message into 136-byte blocks.  Structural recursion on
a fuel bound (the list length) so that the kernel can evaluate it. -/
def toBlocksAux : Nat → Bytes → List Bytes
  | 0, l => [l.take 136]
  | Nat.succ f, l =>
    if l.length ≤ 136 then [l.take 136]
    else (l.take 136) :: toBlocksAux f (l.drop 136)

def toBlocks (l : Bytes) : List Bytes := toBlocksAux l.length l

/-- Keccak-256 with legacy padding, as computed by
solana_program::keccak::hash.  Returns the 32 output bytes. -/
def keccak256 (m : Bytes) : Bytes :=
  let s := (toBlocks (keccakPad m)).foldl absorbBlock KState.zero
  laneToBytes 8 s.s0 ++ laneToBytes 8 s.s1 ++ laneToBytes 8 s.s2 ++ laneToBytes 8 s.s3

set_option maxRecDepth 100000 in
/-- Validation of the hash implementation against the published test
vector keccak256 of the empty string =
c5d2460186f7233c927e7db2dcc703c0e500b653ca82273b7bfad8045d85a470. -/
theorem keccak256_empty_vector :
    (keccak256 []).map Fin.val =
      [0xc5, 0xd2, 0x46, 0x01, 0x86, 0xf7, 0x23, 0x3c,
       0x92, 0x7e, 0x7d, 0xb2, 0xdc, 0xc7, 0x03, 0xc0,
       0xe5, 0x00, 0xb6, 0x53, 0xca, 0x82, 0x27, 0x3b,
       0x7b, 0xfa, 0xd8, 0x04, 0x5d, 0x85, 0xa4, 0x70] := by decide

theorem keccak256_length (m : Bytes) : (keccak256 m).length = 32 := by
  simp [keccak256, laneToBytes]

/-! ## Byte-string comparison

solana_program::keccak::Hash derives Ord on a [u8; 32] array, which is
elementwise lexicographic comparison; for strings of equal length this
coincides with comparison of the big-endian numeric value (proved in
bytesLtLex_iff_beNat below). -/

/-- Strict lexicographic order on byte strings, as the derived Rust Ord
compares [u8; 32] arrays. -/
def bytesLtLex : Bytes → Bytes → Bool
  | [], [] => false
  | [], _ :: _ => true
  | _ :: _, [] => false
  | a :: as_, b :: bs => if a.val < b.val then true
      else if b.val < a.val then false
      else bytesLtLex as_ bs

/-- The value of a byte string read as a big-endian natural number. -/
def beNat : Bytes → Nat
  | [] => 0
  | x :: xs => x.val * 256 ^ xs.length + beNat xs

theorem beNat_lt_pow (l : Bytes) : beNat l < 256 ^ l.length := by
  induction l with
  | nil => simp [beNat]
  | cons x xs ih =>
    simp only [beNat, List.length_cons, pow_succ]
    have hx : x.val + 1 ≤ 256 := x.isLt
    calc x.val * 256 ^ xs.length + beNat xs
        < x.val * 256 ^ xs.length + 256 ^ xs.length := by omega
      _ = (x.val + 1) * 256 ^ xs.length := by ring
      _ ≤ 256 * 256 ^ xs.length := by
          exact Nat.mul_le_mul_right _ hx
      _ = 256 ^ xs.length * 256 := by ring

/-- For byte strings of equal length, the Rust lexicographic order is the
order of the big-endian numeric values. -/
theorem bytesLtLex_iff_beNat (a b : Bytes) (h : a.length = b.length) :
    bytesLtLex a b = true ↔ beNat a < beNat b := by
  induction a generalizing b with
  | nil =>
    cases b with
    | nil => simp [bytesLtLex, beNat]
    | cons y ys => simp at h
  | cons x xs ih =>
    cases b with
    | nil => simp at h
    | cons y ys =>
      have h2 : xs.length = ys.length := by simpa using h
      have hxs := beNat_lt_pow xs
      have hys := beNat_lt_pow ys
      rw [h2] at hxs
      simp only [bytesLtLex, beNat, h2]
      rcases Nat.lt_trichotomy x.val y.val with hlt | heq | hgt
      · rw [if_pos hlt]
        have hmul : (x.val + 1) * 256 ^ ys.length ≤ y.val * 256 ^ ys.length :=
          mul_le_mul_right' (by omega) _
        rw [add_mul, one_mul] at hmul
        constructor
        · intro _; omega
        · intro _; rfl
      · rw [if_neg (by omega : ¬ x.val < y.val), if_neg (by omega : ¬ y.val < x.val),
          ih ys h2, heq]
        omega
      · rw [if_neg (by omega : ¬ x.val < y.val), if_pos hgt]
        have hmul : (y.val + 1) * 256 ^ ys.length ≤ x.val * 256 ^ ys.length :=
          mul_le_mul_right' (by omega) _
        rw [add_mul, one_mul] at hmul
        constructor
        · intro hfalse; exact absurd hfalse (by simp)
        · intro hcontra; omega

/-! ## lib/src/merkle.rs : the canonical codec and Merkle root -/

/-- The fixed ASCII network identifier "Solana". -/
def SOLANA_NETWORK : Bytes := [83, 111, 108, 97, 110, 97]

/-- amount_bytes: the u64 serialized big-endian into the low 8 bytes of a
32-byte zero-padded buffer (lib/src/merkle.rs lines 44-53). -/
def amount_bytes (amount : Nat) : Bytes :=
  List.replicate 24 ⟨0, by decide⟩ ++
    [byteOfNat (amount >>> 56), byteOfNat (amount >>> 48),
     byteOfNat (amount >>> 40), byteOfNat (amount >>> 32),
     byteOfNat (amount >>> 24), byteOfNat (amount >>> 16),
     byteOfNat (amount >>> 8), byteOfNat amount]

/-- ContentNode (lib/src/merkle.rs): the withdrawal leaf.  The data field
stores the already-encoded operation bytes (TransferData.get_operation at
the bridge call sites). -/
structure ContentNode where
  origin : Bytes
  network_to : Bytes
  receiver : Bytes
  program_id : Bytes
  data : Bytes

def ContentNode.new (origin receiver program_id : Bytes) (data : Bytes) : ContentNode :=
  ⟨origin, SOLANA_NETWORK, receiver, program_id, data⟩

/-- ContentNode::hash: keccak256 of data, origin, network, receiver and
program id appended in this order (lib/src/merkle.rs lines 28-41). -/
def ContentNode.hash (c : ContentNode) : Bytes :=
  keccak256 (c.data ++ c.origin ++ c.network_to ++ c.receiver ++ c.program_id)

/-- The Merkle fold of lib/src/merkle.rs get_merkle_root, starting from an
arbitrary 32-byte hash (this entry point is what the commission processor
calls).  At each step the source compares the sibling (leaf) with the
accumulated hash using the derived Ord of keccak::Hash and hashes the pair
with the branch if leaf >= hash then keccak(leaf || hash) else
keccak(hash || leaf). -/
def merkle_root_from_hash (h : Bytes) (path : List Bytes) : Bytes :=
  path.foldl
    (fun hash leaf =>
      if bytesLtLex leaf hash then keccak256 (hash ++ leaf)
      else keccak256 (leaf ++ hash))
    h

/-- get_merkle_root (lib/src/merkle.rs lines 55-68): hash the content node,
then fold the sibling path. -/
def get_merkle_root (content : ContentNode) (path : List Bytes) : Bytes :=
  merkle_root_from_hash content.hash path

/-! ## bridge/program/src/merkle.rs : TransferData -/

/-- TransferData (bridge/program/src/merkle.rs lines 52-62).  Strings are
modelled as their UTF-8 bytes. -/
structure TransferData where
  address_to : Option Bytes
  token_id_to : Option Bytes
  amount : Option Nat
  name : Option Bytes
  symbol : Option Bytes
  uri : Option Bytes
  decimals : Option Byte
  deriving DecidableEq, Repr

def TransferData.new_ft_transfer (mint : Bytes) (amount : Nat)
    (name symbol uri : Bytes) (decimals : Byte) : TransferData :=
  ⟨some mint, none, some amount, some name, some symbol, some uri, some decimals⟩

def TransferData.new_nft_transfer (mint : Bytes) (collection : Option Bytes)
    (name symbol uri : Bytes) : TransferData :=
  ⟨collection, some mint, none, some name, some symbol, some uri, none⟩

def TransferData.new_native_transfer (amount : Nat) : TransferData :=
  ⟨none, none, some amount, none, none, none, none⟩

def optBytes : Option Bytes → Bytes
  | none => []
  | some v => v

/-- TransferData::get_operation (bridge/program/src/merkle.rs lines
102-136): append, in source order and only when the field is Some,
address_to, name, token_id_to, uri, amount_bytes(amount), symbol and the
decimals byte. -/
def TransferData.get_operation (t : TransferData) : Bytes :=
  optBytes t.address_to ++
  optBytes t.name ++
  optBytes t.token_id_to ++
  optBytes t.uri ++
  (match t.amount with
   | none => []
   | some a => amount_bytes a) ++
  optBytes t.symbol ++
  (match t.decimals with
   | none => []
   | some d => [d])

/-! ## Claim C3: the Merkle combination order -/

/-- The combination order as the specification words it (claim C3): the
smaller of the two hashes, compared as 32-byte big-endian values, placed
first, with the sibling placed first when the two are equal.  Stated here
from the claim's words, for refinement comparison with the source
definition get_merkle_root. -/
def get_merkle_root_claimC3 (content : ContentNode) (path : List Bytes) : Bytes :=
  path.foldl
    (fun h sib =>
      if beNat sib ≤ beNat h then keccak256 (sib ++ h) else keccak256 (h ++ sib))
    content.hash

/-- The combination step of the amended claim: the larger-or-equal hash
(as a 32-byte big-endian value) placed first, the sibling first on ties. -/
def combineLargerFirst (h sib : Bytes) : Bytes :=
  if beNat h ≤ beNat sib then keccak256 (sib ++ h) else keccak256 (h ++ sib)

def c3zero32 : Bytes := List.replicate 32 ⟨0, by decide⟩

def c3sib : Bytes := c3zero32

def c3content : ContentNode :=
  ContentNode.new c3zero32 c3zero32 c3zero32
    (TransferData.new_native_transfer 1000000).get_operation

set_option maxRecDepth 1000000 in
/-- C3 counterexample: at a concrete single-sibling path whose sibling is
numerically smaller than the leaf hash, the source places the leaf (the
larger value) first, not the sibling: the computed root differs from the
smaller-first root the claim describes. -/
theorem C3_counterexample :
    beNat c3sib < beNat (ContentNode.hash c3content) ∧
    get_merkle_root c3content [c3sib] = keccak256 (ContentNode.hash c3content ++ c3sib) ∧
    get_merkle_root_claimC3 c3content [c3sib] = keccak256 (c3sib ++ ContentNode.hash c3content) ∧
    get_merkle_root c3content [c3sib] ≠ get_merkle_root_claimC3 c3content [c3sib] := by
  refine ⟨by decide, by decide, by decide, by decide⟩

theorem combineLargerFirst_length (h s : Bytes) : (combineLargerFirst h s).length = 32 := by
  unfold combineLargerFirst
  split
  · exact keccak256_length _
  · exact keccak256_length _

theorem merkle_fold_larger_first (path : List Bytes) :
    ∀ h : Bytes, h.length = 32 → (∀ s ∈ path, s.length = 32) →
      merkle_root_from_hash h path = path.foldl combineLargerFirst h := by
  induction path with
  | nil => intro h _ _; rfl
  | cons s rest ih =>
    intro h hh hp
    have hs : s.length = 32 := hp s (List.mem_cons_self _ _)
    have hrest : ∀ x ∈ rest, x.length = 32 := fun x hx => hp x (List.mem_cons_of_mem _ hx)
    have hiff := bytesLtLex_iff_beNat s h (by rw [hs, hh])
    have hcomb : (if bytesLtLex s h then keccak256 (h ++ s) else keccak256 (s ++ h))
        = combineLargerFirst h s := by
      by_cases hc : beNat h ≤ beNat s
      · have hb : bytesLtLex s h = false := by
          cases hb2 : bytesLtLex s h with
          | false => rfl
          | true => exact absurd (hiff.mp hb2) (by omega)
        simp [combineLargerFirst, hb, hc]
      · have hb : bytesLtLex s h = true := hiff.mpr (by omega)
        simp [combineLargerFirst, hb, hc]
    have hunfold : merkle_root_from_hash h (s :: rest)
        = merkle_root_from_hash
            (if bytesLtLex s h then keccak256 (h ++ s) else keccak256 (s ++ h)) rest := rfl
    rw [hunfold, hcomb, List.foldl_cons]
    exact ih (combineLargerFirst h s) (combineLargerFirst_length h s) hrest

/-- C3 (amended): get_merkle_root folds the path combining at each step by
keccak256 of the concatenation of the two hashes with the LARGER-or-equal
value (compared as 32-byte big-endian values) placed first — the sibling
first when the two hashes are equal (the order is then immaterial) — and
for the empty path the returned root is the leaf hash itself. -/
theorem C3_combination_amended (content : ContentNode) (path : List Bytes)
    (hp : ∀ s ∈ path, s.length = 32) :
    get_merkle_root content path = path.foldl combineLargerFirst content.hash ∧
    get_merkle_root content [] = content.hash :=
  ⟨merkle_fold_larger_first path content.hash (keccak256_length _) hp, rfl⟩

set_option maxRecDepth 1000000 in
theorem C3_combination_amended_witness :
    get_merkle_root c3content [c3sib]
      = List.foldl combineLargerFirst (ContentNode.hash c3content) [c3sib] ∧
    get_merkle_root c3content [] = ContentNode.hash c3content :=
  C3_combination_amended c3content [c3sib]
    (by intro s hs; rw [List.mem_singleton] at hs; subst hs; decide)

/-! ## Claim C4: the withdrawal leaf byte layout -/

/-- C4: the withdrawal leaf hash is keccak256 of
data, origin, "Solana", receiver and program id concatenated in this
order, and the data of TransferData.get_operation is, per constructor:
amount_bytes(amount) for Native; mint, name, uri, amount_bytes(amount),
symbol, decimals byte for FT; optional collection, name, mint, uri,
symbol (no amount, no decimals) for NFT. -/
theorem C4_withdrawal_leaf_encoding :
    (∀ origin receiver program_id data,
      (ContentNode.new origin receiver program_id data).hash
        = keccak256 (data ++ origin ++ SOLANA_NETWORK ++ receiver ++ program_id)) ∧
    (∀ a, (TransferData.new_native_transfer a).get_operation = amount_bytes a) ∧
    (∀ mint a name symbol uri d,
      (TransferData.new_ft_transfer mint a name symbol uri d).get_operation
        = mint ++ name ++ uri ++ amount_bytes a ++ symbol ++ [d]) ∧
    (∀ mint collection name symbol uri,
      (TransferData.new_nft_transfer mint collection name symbol uri).get_operation
        = optBytes collection ++ name ++ mint ++ uri ++ symbol) := by
  refine ⟨fun o r p d => rfl, fun a => ?_, fun mint a name symbol uri d => ?_,
    fun mint collection name symbol uri => ?_⟩
  · simp [TransferData.get_operation, TransferData.new_native_transfer, optBytes]
  · simp [TransferData.get_operation, TransferData.new_ft_transfer, optBytes]
  · simp [TransferData.get_operation, TransferData.new_nft_transfer, optBytes]

/-! ## Claim C9: the encoding is not injective -/

def c9mint : Bytes := List.replicate 32 ⟨7, by decide⟩

/-- FT transfer with name "AB" and uri "C". -/
def c9td1 : TransferData := TransferData.new_ft_transfer c9mint 5 [65, 66] [83] [67] 9

/-- FT transfer with name "A" and uri "BC". -/
def c9td2 : TransferData := TransferData.new_ft_transfer c9mint 5 [65] [83] [66, 67] 9

set_option maxRecDepth 100000 in
/-- C9: two distinct FT TransferData values — identical except that one
has name "AB", uri "C" and the other name "A", uri "BC" — encode to
byte-for-byte identical operation bytes, and hence produce identical
withdrawal leaf hashes. -/
theorem C9_encoding_not_injective :
    c9td1 ≠ c9td2 ∧
    c9td1.get_operation = c9td2.get_operation ∧
    (ContentNode.new c3zero32 c3zero32 c3zero32 c9td1.get_operation).hash
      = (ContentNode.new c3zero32 c3zero32 c3zero32 c9td2.get_operation).hash := by
  have hop : c9td1.get_operation = c9td2.get_operation := by decide
  exact ⟨by decide, hop, by rw [hop]⟩

/-! ## The commission engine (commission/program/src/processor.rs)

Data model.  The CommissionAdmin record is the one the processor reads
and writes: the acceptable-token list, the four per-operation u64 nonces
and the initialization flag.  (state.rs in this source snapshot is a
stale revision without the nonce fields; the processor, which reads and
writes all four nonces, is the authority for the stored layout.) -/

abbrev Pubkey := Bytes

/-- lib::TokenType. -/
inductive TokenType where
  | Native
  | NFT
  | FT
  deriving DecidableEq, Repr

/-- lib::CommissionToken: the fee-token variant tag with embedded mint. -/
inductive CommissionTokenKind where
  | Native
  | FT (mint : Pubkey)
  | NFT (mint : Pubkey)
  deriving DecidableEq, Repr

/-- lib::instructions::commission::CommissionTokenArg. -/
structure CommissionTokenArg where
  token : CommissionTokenKind
  amount : Nat
  deriving DecidableEq, Repr

/-- commission state CommissionToken: one acceptable-tokens entry. -/
structure CommissionToken where
  token : CommissionTokenKind
  amount : Nat
  deriving DecidableEq, Repr

def CommissionToken.from (value : CommissionTokenArg) : CommissionToken :=
  ⟨value.token, value.amount⟩

inductive OperationType where
  | AddToken
  | RemoveToken
  | UpdateToken
  | WithdrawToken
  deriving DecidableEq, Repr

def OperationType.toByte : OperationType → Byte
  | .AddToken => 0
  | .RemoveToken => 1
  | .UpdateToken => 2
  | .WithdrawToken => 3

structure CommissionAdmin where
  acceptable_tokens : List CommissionToken
  add_token_nonce : Nat
  remove_token_nonce : Nat
  update_token_nonce : Nat
  withdraw_token_nonce : Nat
  is_initialized : Bool
  deriving DecidableEq, Repr

/-- bridge/program/src/state.rs BridgeAdmin.  public_key is the 64-byte
secp256k1 key in the format returned by secp256k1_recover. -/
structure BridgeAdmin where
  public_key : Bytes
  commission_program : Pubkey
  is_initialized : Bool
  deriving DecidableEq, Repr

/-- commission/program/src/merkle.rs Content: the commission leaf. -/
structure CommissionContent where
  nonce : Nat
  receiver : Option Pubkey
  contract : Pubkey
  network : Bytes
  operation_type : OperationType
  token : CommissionToken

def CommissionContent.new (nonce : Nat) (receiver : Option Pubkey) (contract : Pubkey)
    (operation_type : OperationType) (token : CommissionToken) : CommissionContent :=
  ⟨nonce, receiver, contract, SOLANA_NETWORK, operation_type, token⟩

/-- Content::hash (commission/program/src/merkle.rs lines 34-63):
keccak256 of amount_bytes(nonce), the optional receiver, the contract id,
the network bytes, the one-byte operation tag, the mint for FT/NFT, and
amount_bytes(token.amount). -/
def CommissionContent.hash (c : CommissionContent) : Bytes :=
  keccak256 (amount_bytes c.nonce ++ optBytes c.receiver ++ c.contract ++ c.network ++
    [c.operation_type.toByte] ++
    (match c.token.token with
     | .Native => []
     | .FT mint => mint
     | .NFT mint => mint) ++
    amount_bytes c.token.amount)

/-- Program errors, flattened from the unions in lib/src/error.rs,
together with the runtime-level failures the processors propagate via
the question-mark operator.  AlreadyInUse also stands for the system
program's account-already-in-use error raised when create_account hits an
existing account: both surface as custom error code 0 of the failing
instruction. -/
inductive Err where
  | AlreadyInUse
  | NotRentExempt
  | NotInitialized
  | UnsignedAdmin
  | WrongAdmin
  | WrongDataLen
  | WrongSeeds
  | WrongNonce
  | WrongTokenAccount
  | WrongMetadataAccount
  | WrongArgsSize
  | WrongMint
  | WrongMerklePath
  | WrongMerkleRoot
  | WrongContentHash
  | WrongSignature
  | InvalidSignature
  | InvalidMessage
  | InvalidKey
  | WrongTokenType
  | WrongBalance
  | UninitializedMetadata
  | WrongTokenStandard
  | WrongTokenSeed
  | NoTokenMeta
  | UninitializedMint
  | WrongCommissionProgram
  | WrongCommissionArguments
  | WrongCommissionAccount
  | NotAcceptable
  | NotSupported
  | InvalidSeeds
  | BorshIoFailed
  | SysvarFailure
  | ExternalCallFailed
  | RuntimePanic
  | InvalidAccountData
  deriving DecidableEq, Repr

/-- Token-metadata record fields read by the bridge (name, symbol, uri as
padded byte strings, and the optional verified collection key). -/
structure TokenMetadata where
  name : Bytes
  symbol : Bytes
  uri : Bytes
  collection : Option Pubkey
  deriving DecidableEq, Repr

/-- The cross-program invocations the core performs, with their
arguments.  Their effects live in collaborator programs outside the core;
the environment decides whether each call succeeds. -/
inductive CpiCall where
  | createAssociatedAccount (payer wallet mint account : Pubkey)
  | tokenTransfer (source dest authority : Pubkey) (amount : Nat)
  | tokenBurn (account mint authority : Pubkey) (amount : Nat)
  | mintTo (mint account owner : Pubkey) (amount : Nat)
  | initMint (mint authority : Pubkey) (decimals : Byte)
  | createMetadata (metadata mint authority payer : Pubkey) (name symbol uri : Bytes)
  | systemTransfer (source dest : Pubkey) (amount : Nat)
  | systemCreateAccount (payer account : Pubkey) (space : Nat)
  deriving DecidableEq, Repr

/-- Oracles for the host-chain facilities the core consumes as external
collaborators: PDA derivation, secp256k1 recovery, rent, associated-token
address derivation, reads of token/metadata accounts owned by other
programs, and the outcomes of cross-program invocations.  Theorems
quantify over an arbitrary Env; witnesses instantiate a concrete one. -/
structure Env where
  createProgramAddress : List Bytes → Pubkey → Option Pubkey
  findProgramAddress : Bytes → Pubkey → Pubkey × Byte
  secpRecover : Bytes → Byte → Bytes → Option Bytes
  rentMinimumBalance : Nat → Nat
  associatedTokenAddress : Pubkey → Pubkey → Pubkey
  accountDataLen : Pubkey → Nat
  readMetadata : Pubkey → Option TokenMetadata
  readMintDecimals : Pubkey → Option Byte
  readTokenAccountAmount : Pubkey → Option Nat
  metadataAccountOf : Pubkey → Pubkey
  cpi : CpiCall → Bool

/-- lib/src/ecdsa.rs verify_ecdsa_signature: recover, then require
byte-equality with the stored key. -/
def verify_ecdsa_signature (env : Env) (hash sig : Bytes) (reid : Byte)
    (target_key : Bytes) : Except Err Unit :=
  match env.secpRecover hash reid sig with
  | none => .error .InvalidSignature
  | some key => if key ≠ target_key then .error .WrongSignature else .ok ()

/-- The string "commission_admin" in ASCII (lib COMMISSION_ADMIN_PDA_SEED). -/
def COMMISSION_ADMIN_PDA_SEED : Bytes :=
  [99, 111, 109, 109, 105, 115, 115, 105, 111, 110, 95, 97, 100, 109, 105, 110]

def MAX_TOKENS_COUNT : Nat := 10

/-- lib MAX_TOKEN_SIZE = size_of::<CommissionToken>() + 32.  With the
repr(C) layout of the enum (4-byte tag plus the 32-byte mint payload)
the size is 36, so MAX_TOKEN_SIZE = 68. -/
def MAX_TOKEN_SIZE : Nat := 68

/-- commission state MAX_ADMIN_SIZE = MAX_TOKENS_COUNT * (MAX_TOKEN_SIZE + 8) + 8:
the fixed byte size of the CommissionAdmin account data. -/
def MAX_ADMIN_SIZE : Nat := MAX_TOKENS_COUNT * (MAX_TOKEN_SIZE + 8) + 8

/-- Borsh-serialized size of one acceptable-tokens entry: a 1-byte enum
tag, the 32-byte mint for FT/NFT, and the 8-byte little-endian amount. -/
def CommissionToken.borshSize (t : CommissionToken) : Nat :=
  (match t.token with
   | .Native => 1
   | .FT _ => 33
   | .NFT _ => 33) + 8

/-- Borsh-serialized size of the CommissionAdmin record: a 4-byte vector
length prefix, the entries, the four 8-byte nonces and the 1-byte flag.
Serializing into the fixed MAX_ADMIN_SIZE account buffer fails when this
exceeds the buffer. -/
def CommissionAdmin.borshSize (a : CommissionAdmin) : Nat :=
  4 + (a.acceptable_tokens.map CommissionToken.borshSize).sum + 32 + 1

/-- commission/program/src/processor.rs process_add_token (lines
177-221).  Inputs are the commission program id, the two account keys of
the instruction, the deserialized account records and the instruction
arguments; the output is the record serialized back, or the error that
aborts the instruction (the runtime then rolls back every mutation).
The initialization check is transcribed verbatim from the source, where
it reads: if commission_admin.is_initialized, return NotInitialized. -/
def process_add_token (env : Env) (program_id : Pubkey)
    (commission_admin_key bridge_admin_key : Pubkey)
    (commission_admin : CommissionAdmin) (bridge_admin : BridgeAdmin)
    (signature : Bytes) (recovery_id : Byte) (path : List Bytes)
    (token : CommissionTokenArg) : Except Err CommissionAdmin :=
  match env.createProgramAddress [COMMISSION_ADMIN_PDA_SEED, bridge_admin_key] program_id with
  | none => .error .InvalidSeeds
  | some commission_key =>
    if commission_key ≠ commission_admin_key then .error .WrongAdmin
    else if commission_admin.is_initialized then .error .NotInitialized
    else if ¬ bridge_admin.is_initialized then .error .NotInitialized
    else
      let content := CommissionContent.new commission_admin.add_token_nonce none
        program_id .AddToken (CommissionToken.from token)
      let root := merkle_root_from_hash content.hash path
      match env.secpRecover root recovery_id signature with
      | none => .error .InvalidSignature
      | some key =>
        if key ≠ bridge_admin.public_key then .error .WrongSignature
        else
          let admin2 : CommissionAdmin :=
            { commission_admin with
              add_token_nonce := (commission_admin.add_token_nonce + 1) % U64MOD,
              acceptable_tokens :=
                commission_admin.acceptable_tokens ++ [CommissionToken.from token] }
          if MAX_ADMIN_SIZE < admin2.borshSize then .error .BorshIoFailed
          else .ok admin2

/-- Remove the first entry equal (token and amount) to the given one, as
the source's indexed loop with remove-and-break does. -/
def removeFirstEq : List CommissionToken → CommissionToken → List CommissionToken
  | [], _ => []
  | x :: xs, t => if x = t then xs else x :: removeFirstEq xs t

/-- Overwrite the amount of the first entry whose token field equals the
given one, as the source's indexed loop with assign-and-break does. -/
def updateFirstKind : List CommissionToken → CommissionToken → List CommissionToken
  | [], _ => []
  | x :: xs, t =>
    if x.token = t.token then { x with amount := t.amount } :: xs
    else x :: updateFirstKind xs t

/-- processor.rs process_remove_token (lines 223-273), with the same
verbatim inverted initialization check as process_add_token. -/
def process_remove_token (env : Env) (program_id : Pubkey)
    (commission_admin_key bridge_admin_key : Pubkey)
    (commission_admin : CommissionAdmin) (bridge_admin : BridgeAdmin)
    (signature : Bytes) (recovery_id : Byte) (path : List Bytes)
    (token : CommissionTokenArg) : Except Err CommissionAdmin :=
  match env.createProgramAddress [COMMISSION_ADMIN_PDA_SEED, bridge_admin_key] program_id with
  | none => .error .InvalidSeeds
  | some commission_key =>
    if commission_key ≠ commission_admin_key then .error .WrongAdmin
    else if commission_admin.is_initialized then .error .NotInitialized
    else if ¬ bridge_admin.is_initialized then .error .NotInitialized
    else
      let content := CommissionContent.new commission_admin.remove_token_nonce none
        program_id .RemoveToken (CommissionToken.from token)
      let root := merkle_root_from_hash content.hash path
      match env.secpRecover root recovery_id signature with
      | none => .error .InvalidSignature
      | some key =>
        if key ≠ bridge_admin.public_key then .error .WrongSignature
        else
          let admin2 : CommissionAdmin :=
            { commission_admin with
              remove_token_nonce := (commission_admin.remove_token_nonce + 1) % U64MOD,
              acceptable_tokens :=
                removeFirstEq commission_admin.acceptable_tokens (CommissionToken.from token) }
          if MAX_ADMIN_SIZE < admin2.borshSize then .error .BorshIoFailed
          else .ok admin2

/-- processor.rs process_update_token (lines 275-325), with the same
verbatim inverted initialization check. -/
def process_update_token (env : Env) (program_id : Pubkey)
    (commission_admin_key bridge_admin_key : Pubkey)
    (commission_admin : CommissionAdmin) (bridge_admin : BridgeAdmin)
    (signature : Bytes) (recovery_id : Byte) (path : List Bytes)
    (token : CommissionTokenArg) : Except Err CommissionAdmin :=
  match env.createProgramAddress [COMMISSION_ADMIN_PDA_SEED, bridge_admin_key] program_id with
  | none => .error .InvalidSeeds
  | some commission_key =>
    if commission_key ≠ commission_admin_key then .error .WrongAdmin
    else if commission_admin.is_initialized then .error .NotInitialized
    else if ¬ bridge_admin.is_initialized then .error .NotInitialized
    else
      let content := CommissionContent.new commission_admin.update_token_nonce none
        program_id .UpdateToken (CommissionToken.from token)
      let root := merkle_root_from_hash content.hash path
      match env.secpRecover root recovery_id signature with
      | none => .error .InvalidSignature
      | some key =>
        if key ≠ bridge_admin.public_key then .error .WrongSignature
        else
          let admin2 : CommissionAdmin :=
            { commission_admin with
              update_token_nonce := (commission_admin.update_token_nonce + 1) % U64MOD,
              acceptable_tokens :=
                updateFirstKind commission_admin.acceptable_tokens (CommissionToken.from token) }
          if MAX_ADMIN_SIZE < admin2.borshSize then .error .BorshIoFailed
          else .ok admin2

/-- processor.rs process_withdraw (lines 328-425).  Here the
initialization check has the expected direction.  The token movement is a
cross-program invocation whose outcome the environment decides; the nonce
bump and serialize happen after it, as in the source. -/
def process_withdraw (env : Env) (program_id : Pubkey)
    (commission_admin_key bridge_admin_key receiver_key : Pubkey)
    (commission_admin : CommissionAdmin) (bridge_admin : BridgeAdmin)
    (signature : Bytes) (recovery_id : Byte) (path : List Bytes)
    (token : CommissionTokenArg) (withdraw_amount : Nat)
    (receiver_associated_key commission_associated_key : Pubkey) :
    Except Err CommissionAdmin :=
  match env.createProgramAddress [COMMISSION_ADMIN_PDA_SEED, bridge_admin_key] program_id with
  | none => .error .InvalidSeeds
  | some commission_key =>
    if commission_key ≠ commission_admin_key then .error .WrongAdmin
    else if ¬ commission_admin.is_initialized then .error .NotInitialized
    else if ¬ bridge_admin.is_initialized then .error .NotInitialized
    else
      let content := CommissionContent.new commission_admin.withdraw_token_nonce
        (some receiver_key) program_id .WithdrawToken (CommissionToken.from token)
      let root := merkle_root_from_hash content.hash path
      match env.secpRecover root recovery_id signature with
      | none => .error .InvalidSignature
      | some key =>
        if key ≠ bridge_admin.public_key then .error .WrongSignature
        else
          let movement : Except Err Unit :=
            match token.token with
            | .Native =>
              if env.cpi (.systemTransfer commission_admin_key receiver_key withdraw_amount)
              then .ok () else .error .ExternalCallFailed
            | .FT mint =>
              if commission_associated_key ≠ env.associatedTokenAddress commission_key mint
              then .error .WrongTokenAccount
              else if receiver_associated_key ≠ env.associatedTokenAddress receiver_key mint
              then .error .WrongTokenAccount
              else if env.accountDataLen receiver_associated_key == 0 ∧
                  ¬ env.cpi (.createAssociatedAccount receiver_key receiver_key mint
                      receiver_associated_key)
              then .error .ExternalCallFailed
              else if ¬ env.cpi (.tokenTransfer commission_associated_key
                  receiver_associated_key commission_admin_key withdraw_amount)
              then .error .ExternalCallFailed
              else .ok ()
            | .NFT _ => .error .NotSupported
          match movement with
          | .error e => .error e
          | .ok _ =>
            let admin2 : CommissionAdmin :=
              { commission_admin with
                withdraw_token_nonce := (commission_admin.withdraw_token_nonce + 1) % U64MOD }
            if MAX_ADMIN_SIZE < admin2.borshSize then .error .BorshIoFailed
            else .ok admin2

theorem process_add_token_ok (env : Env) (pid ck bk : Pubkey)
    (ca : CommissionAdmin) (ba : BridgeAdmin) (sig : Bytes) (rid : Byte)
    (path : List Bytes) (tok : CommissionTokenArg) (st2 : CommissionAdmin)
    (h : process_add_token env pid ck bk ca ba sig rid path tok = .ok st2) :
    st2 = { ca with
      add_token_nonce := (ca.add_token_nonce + 1) % U64MOD,
      acceptable_tokens := ca.acceptable_tokens ++ [CommissionToken.from tok] } := by
  simp only [process_add_token] at h
  repeat' split at h
  all_goals simp_all

theorem process_remove_token_ok (env : Env) (pid ck bk : Pubkey)
    (ca : CommissionAdmin) (ba : BridgeAdmin) (sig : Bytes) (rid : Byte)
    (path : List Bytes) (tok : CommissionTokenArg) (st2 : CommissionAdmin)
    (h : process_remove_token env pid ck bk ca ba sig rid path tok = .ok st2) :
    st2 = { ca with
      remove_token_nonce := (ca.remove_token_nonce + 1) % U64MOD,
      acceptable_tokens := removeFirstEq ca.acceptable_tokens (CommissionToken.from tok) } := by
  simp only [process_remove_token] at h
  repeat' split at h
  all_goals simp_all

theorem process_update_token_ok (env : Env) (pid ck bk : Pubkey)
    (ca : CommissionAdmin) (ba : BridgeAdmin) (sig : Bytes) (rid : Byte)
    (path : List Bytes) (tok : CommissionTokenArg) (st2 : CommissionAdmin)
    (h : process_update_token env pid ck bk ca ba sig rid path tok = .ok st2) :
    st2 = { ca with
      update_token_nonce := (ca.update_token_nonce + 1) % U64MOD,
      acceptable_tokens := updateFirstKind ca.acceptable_tokens (CommissionToken.from tok) } := by
  simp only [process_update_token] at h
  repeat' split at h
  all_goals simp_all

theorem process_withdraw_ok (env : Env) (pid ck bk rk : Pubkey)
    (ca : CommissionAdmin) (ba : BridgeAdmin) (sig : Bytes) (rid : Byte)
    (path : List Bytes) (tok : CommissionTokenArg) (wa : Nat)
    (rak cak : Pubkey) (st2 : CommissionAdmin)
    (h : process_withdraw env pid ck bk rk ca ba sig rid path tok wa rak cak = .ok st2) :
    st2 = { ca with
      withdraw_token_nonce := (ca.withdraw_token_nonce + 1) % U64MOD } := by
  simp only [process_withdraw] at h
  repeat' split at h
  all_goals simp_all

theorem process_add_token_wrong_sig (env : Env) (pid ck bk : Pubkey)
    (ca : CommissionAdmin) (ba : BridgeAdmin) (sig : Bytes) (rid : Byte)
    (path : List Bytes) (tok : CommissionTokenArg) (k : Bytes)
    (hpda : env.createProgramAddress [COMMISSION_ADMIN_PDA_SEED, bk] pid = some ck)
    (hca : ca.is_initialized = false) (hba : ba.is_initialized = true)
    (hrec : env.secpRecover
      (merkle_root_from_hash
        (CommissionContent.new ca.add_token_nonce none pid .AddToken
          (CommissionToken.from tok)).hash path) rid sig = some k)
    (hk : k ≠ ba.public_key) :
    process_add_token env pid ck bk ca ba sig rid path tok = .error .WrongSignature := by
  simp only [process_add_token, hpda, hrec]
  simp [hca, hba, hk]

theorem process_remove_token_wrong_sig (env : Env) (pid ck bk : Pubkey)
    (ca : CommissionAdmin) (ba : BridgeAdmin) (sig : Bytes) (rid : Byte)
    (path : List Bytes) (tok : CommissionTokenArg) (k : Bytes)
    (hpda : env.createProgramAddress [COMMISSION_ADMIN_PDA_SEED, bk] pid = some ck)
    (hca : ca.is_initialized = false) (hba : ba.is_initialized = true)
    (hrec : env.secpRecover
      (merkle_root_from_hash
        (CommissionContent.new ca.remove_token_nonce none pid .RemoveToken
          (CommissionToken.from tok)).hash path) rid sig = some k)
    (hk : k ≠ ba.public_key) :
    process_remove_token env pid ck bk ca ba sig rid path tok = .error .WrongSignature := by
  simp only [process_remove_token, hpda, hrec]
  simp [hca, hba, hk]

theorem process_update_token_wrong_sig (env : Env) (pid ck bk : Pubkey)
    (ca : CommissionAdmin) (ba : BridgeAdmin) (sig : Bytes) (rid : Byte)
    (path : List Bytes) (tok : CommissionTokenArg) (k : Bytes)
    (hpda : env.createProgramAddress [COMMISSION_ADMIN_PDA_SEED, bk] pid = some ck)
    (hca : ca.is_initialized = false) (hba : ba.is_initialized = true)
    (hrec : env.secpRecover
      (merkle_root_from_hash
        (CommissionContent.new ca.update_token_nonce none pid .UpdateToken
          (CommissionToken.from tok)).hash path) rid sig = some k)
    (hk : k ≠ ba.public_key) :
    process_update_token env pid ck bk ca ba sig rid path tok = .error .WrongSignature := by
  simp only [process_update_token, hpda, hrec]
  simp [hca, hba, hk]

theorem process_withdraw_wrong_sig (env : Env) (pid ck bk rk : Pubkey)
    (ca : CommissionAdmin) (ba : BridgeAdmin) (sig : Bytes) (rid : Byte)
    (path : List Bytes) (tok : CommissionTokenArg) (wa : Nat)
    (rak cak : Pubkey) (k : Bytes)
    (hpda : env.createProgramAddress [COMMISSION_ADMIN_PDA_SEED, bk] pid = some ck)
    (hca : ca.is_initialized = true) (hba : ba.is_initialized = true)
    (hrec : env.secpRecover
      (merkle_root_from_hash
        (CommissionContent.new ca.withdraw_token_nonce (some rk) pid .WithdrawToken
          (CommissionToken.from tok)).hash path) rid sig = some k)
    (hk : k ≠ ba.public_key) :
    process_withdraw env pid ck bk rk ca ba sig rid path tok wa rak cak
      = .error .WrongSignature := by
  simp only [process_withdraw, hpda, hrec]
  simp [hca, hba, hk]

theorem removeFirstEq_length (l : List CommissionToken) (t : CommissionToken) :
    (removeFirstEq l t).length ≤ l.length := by
  induction l with
  | nil => simp [removeFirstEq]
  | cons x xs ih =>
    simp only [removeFirstEq]
    split
    · simp
    · simpa using Nat.succ_le_succ ih

theorem updateFirstKind_length (l : List CommissionToken) (t : CommissionToken) :
    (updateFirstKind l t).length = l.length := by
  induction l with
  | nil => simp [updateFirstKind]
  | cons x xs ih =>
    simp only [updateFirstKind]
    split
    · simp
    · simpa using ih

theorem removeFirstEq_no_match (l : List CommissionToken) (t : CommissionToken)
    (h : ∀ x ∈ l, x ≠ t) : removeFirstEq l t = l := by
  induction l with
  | nil => rfl
  | cons x xs ih =>
    simp only [removeFirstEq]
    rw [if_neg (h x (List.mem_cons_self _ _))]
    rw [ih (fun y hy => h y (List.mem_cons_of_mem _ hy))]

theorem updateFirstKind_no_match (l : List CommissionToken) (t : CommissionToken)
    (h : ∀ x ∈ l, x.token ≠ t.token) : updateFirstKind l t = l := by
  induction l with
  | nil => rfl
  | cons x xs ih =>
    simp only [updateFirstKind]
    rw [if_neg (h x (List.mem_cons_self _ _))]
    rw [ih (fun y hy => h y (List.mem_cons_of_mem _ hy))]

/-! ## Fixtures for concrete evaluation -/

deriving instance DecidableEq for Except

def pkOp : Bytes := List.replicate 64 ⟨1, by decide⟩

def pkBad : Bytes := List.replicate 64 ⟨2, by decide⟩

def commissionKeyFix : Pubkey := List.replicate 32 ⟨2, by decide⟩

def bridgeKeyFix : Pubkey := List.replicate 32 ⟨3, by decide⟩

def bridgeAdminFix : BridgeAdmin := ⟨pkOp, c3zero32, true⟩

def sigFix : Bytes := List.replicate 64 ⟨0, by decide⟩

/-- A concrete environment whose oracles always cooperate and whose
recovery always yields the operator key pkOp. -/
def envFix : Env where
  createProgramAddress := fun _ _ => some commissionKeyFix
  findProgramAddress := fun _ _ => (commissionKeyFix, ⟨255, by decide⟩)
  secpRecover := fun _ _ _ => some pkOp
  rentMinimumBalance := fun _ => 1
  associatedTokenAddress := fun _ _ => c3zero32
  accountDataLen := fun _ => 0
  readMetadata := fun _ => none
  readMintDecimals := fun _ => none
  readTokenAccountAmount := fun _ => none
  metadataAccountOf := fun _ => c3zero32
  cpi := fun _ => true

/-- As envFix but recovery yields a key different from the operator key. -/
def envBadSig : Env := { envFix with secpRecover := fun _ _ _ => some pkBad }

def camEmpty : CommissionAdmin := ⟨[], 0, 0, 0, 0, false⟩

def camEmptyInit : CommissionAdmin := ⟨[], 0, 0, 0, 0, true⟩

def c5token : CommissionTokenArg := ⟨.FT (List.replicate 32 ⟨11, by decide⟩), 500⟩

/-! ## Claim C5: initialization requirement of the fee-token mutations -/

/-- C5: evaluating the code at the claim's scenario.  With an initialized
CommissionAdmin, empty acceptable_tokens and add_token_nonce 0, the
correct admin PDA and a signature recovering to the operator key, a
correctly signed AddFeeToken is REJECTED with NotInitialized, because the
source's initialization check is inverted (it returns the error named
NotInitialized precisely when the account IS initialized); conversely the
same call on the UNINITIALIZED admin record is accepted. -/
theorem C5_inverted_initialization_check :
    process_add_token envFix c3zero32 commissionKeyFix bridgeKeyFix camEmptyInit
      bridgeAdminFix sigFix 0 [] c5token = .error .NotInitialized ∧
    process_add_token envFix c3zero32 commissionKeyFix bridgeKeyFix camEmpty
      bridgeAdminFix sigFix 0 [] c5token
      = .ok ⟨[CommissionToken.from c5token], 1, 0, 0, 0, false⟩ := by
  refine ⟨by decide, by decide⟩

/-! ## Claim C6: nonce discipline -/

/-- C6: for every successful commission-engine mutation (AddFeeToken,
RemoveFeeToken, UpdateFeeToken, Withdraw) the corresponding nonce
advances by exactly one (mod 2^64; exactly +1 whenever it does not
overflow u64) while the other three nonces are unchanged — so no
operation decreases a nonce — and the commission leaf is built over the
pre-state value of the corresponding nonce, so a signature that does not
recover to the stored operator key over that leaf's Merkle root (in
particular one signed over any other, stale nonce value) is rejected with
WrongSignature, the instruction aborting with no state written. -/
theorem C6_nonce_discipline :
    (∀ env pid ck bk ca ba sig rid path tok st2,
      process_add_token env pid ck bk ca ba sig rid path tok = .ok st2 →
      st2.add_token_nonce = (ca.add_token_nonce + 1) % U64MOD ∧
      (ca.add_token_nonce + 1 < U64MOD → st2.add_token_nonce = ca.add_token_nonce + 1) ∧
      st2.remove_token_nonce = ca.remove_token_nonce ∧
      st2.update_token_nonce = ca.update_token_nonce ∧
      st2.withdraw_token_nonce = ca.withdraw_token_nonce) ∧
    (∀ env pid ck bk ca ba sig rid path tok st2,
      process_remove_token env pid ck bk ca ba sig rid path tok = .ok st2 →
      st2.remove_token_nonce = (ca.remove_token_nonce + 1) % U64MOD ∧
      (ca.remove_token_nonce + 1 < U64MOD → st2.remove_token_nonce = ca.remove_token_nonce + 1) ∧
      st2.add_token_nonce = ca.add_token_nonce ∧
      st2.update_token_nonce = ca.update_token_nonce ∧
      st2.withdraw_token_nonce = ca.withdraw_token_nonce) ∧
    (∀ env pid ck bk ca ba sig rid path tok st2,
      process_update_token env pid ck bk ca ba sig rid path tok = .ok st2 →
      st2.update_token_nonce = (ca.update_token_nonce + 1) % U64MOD ∧
      (ca.update_token_nonce + 1 < U64MOD → st2.update_token_nonce = ca.update_token_nonce + 1) ∧
      st2.add_token_nonce = ca.add_token_nonce ∧
      st2.remove_token_nonce = ca.remove_token_nonce ∧
      st2.withdraw_token_nonce = ca.withdraw_token_nonce) ∧
    (∀ env pid ck bk rk ca ba sig rid path tok wa rak cak st2,
      process_withdraw env pid ck bk rk ca ba sig rid path tok wa rak cak = .ok st2 →
      st2.withdraw_token_nonce = (ca.withdraw_token_nonce + 1) % U64MOD ∧
      (ca.withdraw_token_nonce + 1 < U64MOD →
        st2.withdraw_token_nonce = ca.withdraw_token_nonce + 1) ∧
      st2.add_token_nonce = ca.add_token_nonce ∧
      st2.remove_token_nonce = ca.remove_token_nonce ∧
      st2.update_token_nonce = ca.update_token_nonce) ∧
    (∀ env pid ck bk ca ba sig rid path tok k,
      env.createProgramAddress [COMMISSION_ADMIN_PDA_SEED, bk] pid = some ck →
      ca.is_initialized = false → ba.is_initialized = true →
      env.secpRecover
        (merkle_root_from_hash
          (CommissionContent.new ca.add_token_nonce none pid .AddToken
            (CommissionToken.from tok)).hash path) rid sig = some k →
      k ≠ ba.public_key →
      process_add_token env pid ck bk ca ba sig rid path tok = .error .WrongSignature) ∧
    (∀ env pid ck bk ca ba sig rid path tok k,
      env.createProgramAddress [COMMISSION_ADMIN_PDA_SEED, bk] pid = some ck →
      ca.is_initialized = false → ba.is_initialized = true →
      env.secpRecover
        (merkle_root_from_hash
          (CommissionContent.new ca.remove_token_nonce none pid .RemoveToken
            (CommissionToken.from tok)).hash path) rid sig = some k →
      k ≠ ba.public_key →
      process_remove_token env pid ck bk ca ba sig rid path tok = .error .WrongSignature) ∧
    (∀ env pid ck bk ca ba sig rid path tok k,
      env.createProgramAddress [COMMISSION_ADMIN_PDA_SEED, bk] pid = some ck →
      ca.is_initialized = false → ba.is_initialized = true →
      env.secpRecover
        (merkle_root_from_hash
          (CommissionContent.new ca.update_token_nonce none pid .UpdateToken
            (CommissionToken.from tok)).hash path) rid sig = some k →
      k ≠ ba.public_key →
      process_update_token env pid ck bk ca ba sig rid path tok = .error .WrongSignature) ∧
    (∀ env pid ck bk rk ca ba sig rid path tok wa rak cak k,
      env.createProgramAddress [COMMISSION_ADMIN_PDA_SEED, bk] pid = some ck →
      ca.is_initialized = true → ba.is_initialized = true →
      env.secpRecover
        (merkle_root_from_hash
          (CommissionContent.new ca.withdraw_token_nonce (some rk) pid .WithdrawToken
            (CommissionToken.from tok)).hash path) rid sig = some k →
      k ≠ ba.public_key →
      process_withdraw env pid ck bk rk ca ba sig rid path tok wa rak cak
        = .error .WrongSignature) := by
  refine ⟨?_, ?_, ?_, ?_, ?_, ?_, ?_, ?_⟩
  · intro env pid ck bk ca ba sig rid path tok st2 h
    have hshape := process_add_token_ok env pid ck bk ca ba sig rid path tok st2 h
    subst hshape
    refine ⟨rfl, fun hb => Nat.mod_eq_of_lt hb, rfl, rfl, rfl⟩
  · intro env pid ck bk ca ba sig rid path tok st2 h
    have hshape := process_remove_token_ok env pid ck bk ca ba sig rid path tok st2 h
    subst hshape
    refine ⟨rfl, fun hb => Nat.mod_eq_of_lt hb, rfl, rfl, rfl⟩
  · intro env pid ck bk ca ba sig rid path tok st2 h
    have hshape := process_update_token_ok env pid ck bk ca ba sig rid path tok st2 h
    subst hshape
    refine ⟨rfl, fun hb => Nat.mod_eq_of_lt hb, rfl, rfl, rfl⟩
  · intro env pid ck bk rk ca ba sig rid path tok wa rak cak st2 h
    have hshape := process_withdraw_ok env pid ck bk rk ca ba sig rid path tok wa rak cak st2 h
    subst hshape
    refine ⟨rfl, fun hb => Nat.mod_eq_of_lt hb, rfl, rfl, rfl⟩
  · intro env pid ck bk ca ba sig rid path tok k h1 h2 h3 h4 h5
    exact process_add_token_wrong_sig env pid ck bk ca ba sig rid path tok k h1 h2 h3 h4 h5
  · intro env pid ck bk ca ba sig rid path tok k h1 h2 h3 h4 h5
    exact process_remove_token_wrong_sig env pid ck bk ca ba sig rid path tok k h1 h2 h3 h4 h5
  · intro env pid ck bk ca ba sig rid path tok k h1 h2 h3 h4 h5
    exact process_update_token_wrong_sig env pid ck bk ca ba sig rid path tok k h1 h2 h3 h4 h5
  · intro env pid ck bk rk ca ba sig rid path tok wa rak cak k h1 h2 h3 h4 h5
    exact process_withdraw_wrong_sig env pid ck bk rk ca ba sig rid path tok wa rak cak k
      h1 h2 h3 h4 h5

theorem C6_nonce_discipline_witness :
    (⟨[CommissionToken.from c5token], 1, 0, 0, 0, false⟩ : CommissionAdmin).add_token_nonce
      = camEmpty.add_token_nonce + 1 ∧
    process_add_token envBadSig c3zero32 commissionKeyFix bridgeKeyFix camEmpty
      bridgeAdminFix sigFix 0 [] c5token = .error .WrongSignature := by
  constructor
  · exact (C6_nonce_discipline.1 envFix c3zero32 commissionKeyFix bridgeKeyFix camEmpty
      bridgeAdminFix sigFix 0 [] c5token _ (by decide)).2.1 (by decide)
  · exact C6_nonce_discipline.2.2.2.2.1 envBadSig c3zero32 commissionKeyFix bridgeKeyFix
      camEmpty bridgeAdminFix sigFix 0 [] c5token pkBad rfl rfl rfl rfl (by decide)

/-! ## Claim C8: the acceptable-token list bound -/

def cam10 : CommissionAdmin :=
  ⟨List.replicate 10 ⟨.FT (List.replicate 32 ⟨9, by decide⟩), 100⟩, 0, 0, 0, 0, false⟩

def cam11 : CommissionAdmin :=
  ⟨List.replicate 10 ⟨.FT (List.replicate 32 ⟨9, by decide⟩), 100⟩
      ++ [CommissionToken.from c5token], 1, 0, 0, 0, false⟩

/-- C8 counterexample: from a CommissionAdmin holding exactly ten
acceptable-token entries, a correctly signed AddFeeToken succeeds and the
post-state holds eleven entries: the source enforces no bound on the list
length (MAX_TOKENS_COUNT only sizes the account), and the eleven-entry
record still serializes into the fixed MAX_ADMIN_SIZE buffer. -/
theorem C8_counterexample :
    cam10.acceptable_tokens.length = 10 ∧
    process_add_token envFix c3zero32 commissionKeyFix bridgeKeyFix cam10
      bridgeAdminFix sigFix 0 [] c5token = .ok cam11 ∧
    cam11.acceptable_tokens.length = 11 := by
  refine ⟨by decide, by decide, by decide⟩

/-- C8 (amended): the bound length(acceptable_tokens) ≤ 10 is not an
invariant.  A successful AddFeeToken always yields exactly one more entry
than the pre-state (bounded only by the serialized record fitting the
fixed MAX_ADMIN_SIZE buffer, which admits more than ten entries), while
successful RemoveFeeToken, UpdateFeeToken and Withdraw never increase the
entry count. -/
theorem C8_token_list_growth :
    (∀ env pid ck bk ca ba sig rid path tok st2,
      process_add_token env pid ck bk ca ba sig rid path tok = .ok st2 →
      st2.acceptable_tokens.length = ca.acceptable_tokens.length + 1) ∧
    (∀ env pid ck bk ca ba sig rid path tok st2,
      process_remove_token env pid ck bk ca ba sig rid path tok = .ok st2 →
      st2.acceptable_tokens.length ≤ ca.acceptable_tokens.length) ∧
    (∀ env pid ck bk ca ba sig rid path tok st2,
      process_update_token env pid ck bk ca ba sig rid path tok = .ok st2 →
      st2.acceptable_tokens.length = ca.acceptable_tokens.length) ∧
    (∀ env pid ck bk rk ca ba sig rid path tok wa rak cak st2,
      process_withdraw env pid ck bk rk ca ba sig rid path tok wa rak cak = .ok st2 →
      st2.acceptable_tokens = ca.acceptable_tokens) := by
  refine ⟨?_, ?_, ?_, ?_⟩
  · intro env pid ck bk ca ba sig rid path tok st2 h
    have hshape := process_add_token_ok env pid ck bk ca ba sig rid path tok st2 h
    subst hshape
    simp
  · intro env pid ck bk ca ba sig rid path tok st2 h
    have hshape := process_remove_token_ok env pid ck bk ca ba sig rid path tok st2 h
    subst hshape
    simpa using removeFirstEq_length ca.acceptable_tokens (CommissionToken.from tok)
  · intro env pid ck bk ca ba sig rid path tok st2 h
    have hshape := process_update_token_ok env pid ck bk ca ba sig rid path tok st2 h
    subst hshape
    simpa using updateFirstKind_length ca.acceptable_tokens (CommissionToken.from tok)
  · intro env pid ck bk rk ca ba sig rid path tok wa rak cak st2 h
    have hshape := process_withdraw_ok env pid ck bk rk ca ba sig rid path tok wa rak cak st2 h
    subst hshape
    rfl

theorem C8_token_list_growth_witness :
    cam11.acceptable_tokens.length = cam10.acceptable_tokens.length + 1 := by
  exact C8_token_list_growth.1 envFix c3zero32 commissionKeyFix bridgeKeyFix cam10
    bridgeAdminFix sigFix 0 [] c5token cam11 (by decide)

/-! ## Claim C10: no-match Remove and Update still succeed -/

/-- C10: when the guard checks pass and the operator signature verifies,
RemoveFeeToken and UpdateFeeToken return success even if no entry of
acceptable_tokens matches the given token (full entry equality for
Remove, token-field equality for Update): the list is left unchanged
while the corresponding nonce is still incremented by one.  (Because of
the inverted initialization check of these handlers, the pass condition
on the stored record is is_initialized = false.) -/
theorem C10_no_match_mutations_succeed :
    (∀ env pid ck bk ca ba sig rid path tok,
      env.createProgramAddress [COMMISSION_ADMIN_PDA_SEED, bk] pid = some ck →
      ca.is_initialized = false →
      ba.is_initialized = true →
      env.secpRecover
        (merkle_root_from_hash
          (CommissionContent.new ca.remove_token_nonce none pid .RemoveToken
            (CommissionToken.from tok)).hash path) rid sig = some ba.public_key →
      (∀ t ∈ ca.acceptable_tokens, t ≠ CommissionToken.from tok) →
      ca.borshSize ≤ MAX_ADMIN_SIZE →
      process_remove_token env pid ck bk ca ba sig rid path tok
        = .ok { ca with remove_token_nonce := (ca.remove_token_nonce + 1) % U64MOD }) ∧
    (∀ env pid ck bk ca ba sig rid path tok,
      env.createProgramAddress [COMMISSION_ADMIN_PDA_SEED, bk] pid = some ck →
      ca.is_initialized = false →
      ba.is_initialized = true →
      env.secpRecover
        (merkle_root_from_hash
          (CommissionContent.new ca.update_token_nonce none pid .UpdateToken
            (CommissionToken.from tok)).hash path) rid sig = some ba.public_key →
      (∀ t ∈ ca.acceptable_tokens, t.token ≠ tok.token) →
      ca.borshSize ≤ MAX_ADMIN_SIZE →
      process_update_token env pid ck bk ca ba sig rid path tok
        = .ok { ca with update_token_nonce := (ca.update_token_nonce + 1) % U64MOD }) := by
  constructor
  · intro env pid ck bk ca ba sig rid path tok hpda hca hba hrec hno hsize
    have hrm : removeFirstEq ca.acceptable_tokens (CommissionToken.from tok)
        = ca.acceptable_tokens := removeFirstEq_no_match _ _ hno
    have hsize2 : ¬ (MAX_ADMIN_SIZE <
        4 + (List.map CommissionToken.borshSize ca.acceptable_tokens).sum + 32 + 1) := by
      simp only [CommissionAdmin.borshSize] at hsize
      omega
    simp only [process_remove_token, hpda, hrec]
    simp [hca, hba, hrm, CommissionAdmin.borshSize, hsize2]
  · intro env pid ck bk ca ba sig rid path tok hpda hca hba hrec hno hsize
    have hup : updateFirstKind ca.acceptable_tokens (CommissionToken.from tok)
        = ca.acceptable_tokens := updateFirstKind_no_match _ _ (by
          intro x hx
          simpa [CommissionToken.from] using hno x hx)
    have hsize2 : ¬ (MAX_ADMIN_SIZE <
        4 + (List.map CommissionToken.borshSize ca.acceptable_tokens).sum + 32 + 1) := by
      simp only [CommissionAdmin.borshSize] at hsize
      omega
    simp only [process_update_token, hpda, hrec]
    simp [hca, hba, hup, CommissionAdmin.borshSize, hsize2]

theorem C10_no_match_mutations_succeed_witness :
    process_remove_token envFix c3zero32 commissionKeyFix bridgeKeyFix camEmpty
      bridgeAdminFix sigFix 0 [] c5token
      = .ok { camEmpty with remove_token_nonce := (camEmpty.remove_token_nonce + 1) % U64MOD } ∧
    process_update_token envFix c3zero32 commissionKeyFix bridgeKeyFix camEmpty
      bridgeAdminFix sigFix 0 [] c5token
      = .ok { camEmpty with update_token_nonce := (camEmpty.update_token_nonce + 1) % U64MOD } := by
  constructor
  · exact C10_no_match_mutations_succeed.1 envFix c3zero32 commissionKeyFix bridgeKeyFix
      camEmpty bridgeAdminFix sigFix 0 [] c5token rfl rfl rfl rfl (by simp [camEmpty]) (by decide)
  · exact C10_no_match_mutations_succeed.2 envFix c3zero32 commissionKeyFix bridgeKeyFix
      camEmpty bridgeAdminFix sigFix 0 [] c5token rfl rfl rfl rfl (by simp [camEmpty]) (by decide)

/-! ## Claim C7: DepositNative argument validation -/

/-- src state MAX_NETWORKS_SIZE (the bound on network_to). -/
def MAX_NETWORKS_SIZE : Nat := 20

/-- src state MAX_ADDRESS_SIZE (the bound on receiver_address). -/
def MAX_ADDRESS_SIZE : Nat := 100

structure DepositNativeArgs where
  network_to : Bytes
  receiver_address : Bytes
  amount : Nat
  seeds : Bytes
  deriving DecidableEq, Repr

/-- DepositNativeArgs::validate
(bridge/program/src/instruction_validation.rs lines 7-16): reject with
WrongArgsSize when the receiver string exceeds MAX_ADDRESS_SIZE bytes, or
the network string exceeds MAX_NETWORKS_SIZE bytes, or amount <= 0 —
which for the u64 amount means amount = 0. -/
def DepositNativeArgs.validate (a : DepositNativeArgs) : Except Err Unit :=
  if a.receiver_address.length > MAX_ADDRESS_SIZE ∨
      a.network_to.length > MAX_NETWORKS_SIZE ∨ a.amount = 0
  then .error .WrongArgsSize
  else .ok ()

def c7args : DepositNativeArgs :=
  ⟨[], List.replicate 65 ⟨0, by decide⟩, 1, c3zero32⟩

/-- C7 counterexample: a 65-byte receiver_address passes validation — the
source bound is MAX_ADDRESS_SIZE = 100 bytes, not the 64 the claim
states. -/
theorem C7_counterexample :
    DepositNativeArgs.validate c7args = .ok () ∧
    c7args.receiver_address.length > 64 := by
  refine ⟨by decide, by decide⟩

/-- C7 (amended): DepositNative argument validation fails with
WrongArgsSize exactly when amount = 0, or the receiver_address string is
longer than 100 bytes (MAX_ADDRESS_SIZE), or the network_to string is
longer than 20 bytes (MAX_NETWORKS_SIZE); every argument triple with
amount > 0, receiver within 100 bytes and network within 20 bytes passes
validation. -/
theorem C7_deposit_native_validation (a : DepositNativeArgs) :
    (a.validate = .ok () ↔
      (0 < a.amount ∧ a.receiver_address.length ≤ 100 ∧ a.network_to.length ≤ 20)) ∧
    (a.validate = .error .WrongArgsSize ↔
      (a.amount = 0 ∨ a.receiver_address.length > 100 ∨ a.network_to.length > 20)) := by
  unfold DepositNativeArgs.validate
  by_cases hc : a.receiver_address.length > MAX_ADDRESS_SIZE ∨
      a.network_to.length > MAX_NETWORKS_SIZE ∨ a.amount = 0
  · rw [if_pos hc]
    simp only [MAX_ADDRESS_SIZE, MAX_NETWORKS_SIZE] at hc
    constructor
    · exact ⟨fun h => absurd h (by simp), fun h => by omega⟩
    · exact ⟨fun _ => by omega, fun _ => rfl⟩
  · rw [if_neg hc]
    simp only [MAX_ADDRESS_SIZE, MAX_NETWORKS_SIZE] at hc
    constructor
    · exact ⟨fun _ => by omega, fun _ => rfl⟩
    · exact ⟨fun h => absurd h (by simp), fun h => by omega⟩

/-! ## The bridge state machine (bridge/program/src/processor.rs)

The state tracked by the embedding is the part of the ledger the bridge
instruction itself mutates: lamport balances and the data of accounts
the bridge program owns (the BridgeAdmin record and the Withdraw
receipts).  Accounts owned by collaborator programs (mints, token
accounts, metadata) are read through Env oracles, and the CPIs that
mutate them succeed or fail by Env decision.  An instruction is modelled
transactionally: an error result aborts the transaction and the runtime
rolls back every mutation, so the pre-state stands unchanged. -/

/-- bridge/program/src/state.rs Withdraw: the receipt record. -/
structure Withdraw where
  token_type : TokenType
  mint : Option Pubkey
  amount : Nat
  origin : Bytes
  receiver_address : Pubkey
  is_initialized : Bool
  deriving DecidableEq, Repr

/-- bridge state WITHDRAW_SIZE = size_of::<TokenType>() + 32 + 8 +
MAX_NETWORKS_SIZE + MAX_ADDRESS_SIZE + 1 (repr(C) fieldless enum size 4). -/
def WITHDRAW_SIZE : Nat := 4 + 32 + 8 + MAX_NETWORKS_SIZE + MAX_ADDRESS_SIZE + 1

inductive AccountData where
  | rawZero (size : Nat)
  | bridgeAdminData (a : BridgeAdmin)
  | withdrawData (w : Withdraw)
  deriving DecidableEq, Repr

structure SolAccount where
  lamports : Nat
  data : AccountData
  deriving DecidableEq, Repr

structure ChainState where
  accounts : List (Pubkey × SolAccount)
  deriving DecidableEq, Repr

def ChainState.lookup (st : ChainState) (k : Pubkey) : Option SolAccount :=
  (st.accounts.find? (fun p => p.1 == k)).map Prod.snd

def ChainState.insert (st : ChainState) (k : Pubkey) (a : SolAccount) : ChainState :=
  ⟨(k, a) :: st.accounts.filter (fun p => ! (p.1 == k))⟩

def ChainState.lamports (st : ChainState) (k : Pubkey) : Nat :=
  ((st.lookup k).map SolAccount.lamports).getD 0

def ChainState.setLamports (st : ChainState) (k : Pubkey) (n : Nat) : ChainState :=
  st.insert k ⟨n, ((st.lookup k).map SolAccount.data).getD (.rawZero 0)⟩

theorem ChainState.lookup_insert (st : ChainState) (k : Pubkey) (a : SolAccount) :
    (st.insert k a).lookup k = some a := by
  simp [ChainState.insert, ChainState.lookup, List.find?]

/-- The system program's create_account as the core consumes it
(allocate-if-absent, the spec's replay-guard mechanism): it fails with
the account-already-in-use error when the target account already exists;
otherwise it funds the account with the rent-exempt minimum from the
payer — who must hold that much — and installs zero-filled data of the
requested size. -/
def ChainState.createAccount (st : ChainState) (env : Env) (payer account : Pubkey)
    (space : Nat) : Except Err ChainState :=
  match st.lookup account with
  | some _ => .error .AlreadyInUse
  | none =>
    let rent := env.rentMinimumBalance space
    if st.lamports payer < rent then .error .ExternalCallFailed
    else
      .ok ((st.setLamports payer (st.lamports payer - rent)).insert account
        ⟨rent, .rawZero space⟩)

theorem createAccount_eq_ok_iff (st : ChainState) (env : Env)
    (payer account : Pubkey) (space : Nat) (st1 : ChainState) :
    st.createAccount env payer account space = .ok st1 ↔
    (st.lookup account = none ∧
      env.rentMinimumBalance space ≤ st.lamports payer ∧
      st1 = (st.setLamports payer
          (st.lamports payer - env.rentMinimumBalance space)).insert account
        ⟨env.rentMinimumBalance space, .rawZero space⟩) := by
  unfold ChainState.createAccount
  constructor
  · intro h
    cases hl : st.lookup account with
    | some a => rw [hl] at h; exact absurd h (by simp)
    | none =>
      rw [hl] at h
      dsimp only at h
      by_cases hp : st.lamports payer < env.rentMinimumBalance space
      · rw [if_pos hp] at h; exact absurd h (by simp)
      · rw [if_neg hp] at h
        injection h with h2
        exact ⟨rfl, by omega, h2.symm⟩
  · intro ⟨h1, h2, h3⟩
    rw [h1]
    dsimp only
    rw [if_neg (by omega)]
    rw [h3]

/-- Borsh deserialization of a Withdraw record from an account's data: a
zero-filled buffer parses to the all-defaults record (tag 0 = Native, no
mint, zero amount, zero origin and receiver, uninitialized). -/
def readWithdraw : AccountData → Option Withdraw
  | .rawZero _ => some ⟨.Native, none, 0, List.replicate 32 ⟨0, by decide⟩,
      List.replicate 32 ⟨0, by decide⟩, false⟩
  | .withdrawData w => some w
  | _ => none

def readBridgeAdmin : AccountData → Option BridgeAdmin
  | .bridgeAdminData a => some a
  | _ => none

/-- The receipt record stored at a key, when the account there holds one. -/
def receiptAt (st : ChainState) (k : Pubkey) : Option Withdraw :=
  match st.lookup k with
  | some ⟨_, .withdrawData w⟩ => some w
  | _ => none

/-- Rust str::trim_matches(char::from(0)): strip NUL bytes from both
ends of the padded metadata strings. -/
def trimNul (l : Bytes) : Bytes :=
  ((l.dropWhile (fun b => b == 0)).reverse.dropWhile (fun b => b == 0)).reverse

/-- bridge/program/src/instruction.rs SignedMetadata. -/
structure SignedMetadata where
  name : Bytes
  symbol : Bytes
  uri : Bytes
  decimals : Byte
  deriving DecidableEq, Repr

/-- Rust's question-mark operator is monadic bind on Result; the
processors below are transcribed as Except.bind chains, one step per
source statement, with two small adapters: errIf for a guard that
returns an error when its condition holds, and getOr for unwrapping an
optional read. -/
def errIf (c : Prop) [Decidable c] (e : Err) : Except Err Unit :=
  if c then .error e else .ok ()

def getOr {α : Type} (o : Option α) (e : Err) : Except Err α :=
  match o with
  | none => .error e
  | some a => .ok a

theorem except_bind_ok {α β : Type} (x : Except Err α) (f : α → Except Err β) (b : β) :
    x.bind f = .ok b ↔ ∃ a, x = .ok a ∧ f a = .ok b := by
  cases x <;> simp [Except.bind]

theorem errIf_ok (c : Prop) [Decidable c] (e : Err) (u : Unit) :
    errIf c e = .ok u ↔ ¬ c := by
  unfold errIf
  split <;> simp_all

theorem getOr_ok {α : Type} (o : Option α) (e : Err) (a : α) :
    getOr o e = .ok a ↔ o = some a := by
  cases o <;> simp [getOr]

/-- processor.rs try_mint_token_with_meta (lines 935-995): check the mint
PDA, require signed metadata, and when the mint account is still empty
create and initialize it and create its metadata record (all effects in
collaborator programs, outcome by Env).  Mint::LEN is 82. -/
def try_mint_token_with_meta (env : Env) (program_id : Pubkey)
    (bridge_admin_key : Pubkey) (token_seed : Bytes)
    (signed_meta : Option SignedMetadata)
    (mint_key metadata_key owner_key : Pubkey) : Except Err Unit :=
  (errIf ((env.findProgramAddress token_seed program_id).1 ≠ mint_key)
      .WrongTokenSeed).bind fun _ =>
  (getOr signed_meta .NoTokenMeta).bind fun meta =>
  if env.accountDataLen mint_key == 0 then
    (errIf (¬ env.cpi (.systemCreateAccount owner_key mint_key 82))
        .ExternalCallFailed).bind fun _ =>
    (errIf (¬ env.cpi (.initMint mint_key bridge_admin_key meta.decimals))
        .ExternalCallFailed).bind fun _ =>
    errIf (¬ env.cpi (.createMetadata metadata_key mint_key bridge_admin_key
        owner_key meta.name meta.symbol meta.uri)) .ExternalCallFailed
  else .ok ()

/-- The optional mirror-mint step at the top of the FT/NFT withdrawals:
nothing when token_seed is None, try_mint_token_with_meta when Some. -/
def mint_step (env : Env) (program_id bridge_admin_key : Pubkey)
    (token_seed : Option Bytes) (signed_meta : Option SignedMetadata)
    (mint_key metadata_key owner_key : Pubkey) : Except Err Unit :=
  match token_seed with
  | none => .ok ()
  | some ts => try_mint_token_with_meta env program_id bridge_admin_key ts
      signed_meta mint_key metadata_key owner_key

/-- The NFT collection rule (processor.rs lines 679-699): name and symbol
default to the token's own metadata with no collection; when the metadata
carries a collection, the collection's metadata account is checked and
read, and ITS name and symbol are taken together with the collection key. -/
def collection_name_symbol (env : Env) (metadata : TokenMetadata)
    (collection_metadata_key : Pubkey) : Except Err (Bytes × Bytes × Option Pubkey) :=
  match metadata.collection with
  | none => .ok (metadata.name, metadata.symbol, none)
  | some collection_key =>
    (errIf (collection_metadata_key ≠ env.metadataAccountOf collection_key)
        .WrongMetadataAccount).bind fun _ =>
    (getOr (env.readMetadata collection_metadata_key) .BorshIoFailed).bind fun colmeta =>
    .ok (colmeta.name, colmeta.symbol, some collection_key)

/-- processor.rs process_withdraw_native (lines 368-450).  Account keys
in source order: bridge admin, owner, withdraw receipt. -/
def process_withdraw_native (env : Env) (st : ChainState) (program_id : Pubkey)
    (bridge_admin_key owner_key withdraw_key : Pubkey)
    (seeds signature : Bytes) (recovery_id : Byte)
    (path : List Bytes) (origin : Bytes) (amount : Nat) : Except Err ChainState :=
  (getOr (env.createProgramAddress [seeds] program_id) .InvalidSeeds).bind fun bridge_key =>
  (errIf (bridge_admin_key ≠ bridge_key) .WrongSeeds).bind fun _ =>
  (getOr ((st.lookup bridge_admin_key).bind (fun a => readBridgeAdmin a.data))
      .BorshIoFailed).bind fun bridge_admin =>
  (errIf (¬ bridge_admin.is_initialized) .NotInitialized).bind fun _ =>
  (getOr (env.secpRecover
      (get_merkle_root (ContentNode.new origin owner_key program_id
        (TransferData.new_native_transfer amount).get_operation) path)
      recovery_id signature) .InvalidSignature).bind fun key =>
  (errIf (key ≠ bridge_admin.public_key) .WrongSignature).bind fun _ =>
  (errIf (st.lamports bridge_admin_key < amount) .WrongBalance).bind fun _ =>
  (errIf ((env.findProgramAddress origin program_id).1 ≠ withdraw_key)
      .WrongNonce).bind fun _ =>
  (st.createAccount env owner_key withdraw_key WITHDRAW_SIZE).bind fun st1 =>
  let st2 := st1.setLamports bridge_admin_key (st1.lamports bridge_admin_key - amount)
  let st3 := st2.setLamports owner_key (st2.lamports owner_key + amount)
  (getOr ((st3.lookup withdraw_key).bind (fun a => readWithdraw a.data))
      .BorshIoFailed).bind fun w =>
  (errIf (w.is_initialized = true) .AlreadyInUse).bind fun _ =>
  .ok (st3.insert withdraw_key
    ⟨st3.lamports withdraw_key,
     .withdrawData ⟨.Native, none, amount, origin, owner_key, true⟩⟩)

/-- processor.rs process_withdraw_ft (lines 452-619).  Account keys in
source order: bridge admin, mint, metadata, owner, owner associated,
bridge associated, withdraw receipt. -/
def process_withdraw_ft (env : Env) (st : ChainState) (program_id : Pubkey)
    (bridge_admin_key mint_key metadata_key owner_key owner_associated_key
      bridge_associated_key withdraw_key : Pubkey)
    (seeds signature : Bytes) (recovery_id : Byte) (path : List Bytes)
    (origin : Bytes) (amount : Nat) (token_seed : Option Bytes)
    (signed_meta : Option SignedMetadata) : Except Err ChainState :=
  (getOr (env.createProgramAddress [seeds] program_id) .InvalidSeeds).bind fun bridge_key =>
  (errIf (bridge_admin_key ≠ bridge_key) .WrongSeeds).bind fun _ =>
  (getOr ((st.lookup bridge_admin_key).bind (fun a => readBridgeAdmin a.data))
      .BorshIoFailed).bind fun bridge_admin =>
  (errIf (¬ bridge_admin.is_initialized) .NotInitialized).bind fun _ =>
  (errIf (metadata_key ≠ env.metadataAccountOf mint_key) .WrongMetadataAccount).bind fun _ =>
  (mint_step env program_id bridge_admin_key token_seed signed_meta
      mint_key metadata_key owner_key).bind fun _ =>
  (getOr (env.readMetadata metadata_key) .BorshIoFailed).bind fun metadata =>
  (getOr (env.readMintDecimals mint_key) .InvalidAccountData).bind fun decimals =>
  (getOr (env.secpRecover
      (get_merkle_root (ContentNode.new origin owner_key program_id
        (TransferData.new_ft_transfer mint_key amount (trimNul metadata.name)
          (trimNul metadata.symbol) (trimNul metadata.uri) decimals).get_operation) path)
      recovery_id signature) .InvalidSignature).bind fun key =>
  (errIf (key ≠ bridge_admin.public_key) .WrongSignature).bind fun _ =>
  (errIf (bridge_associated_key ≠ env.associatedTokenAddress bridge_key mint_key)
      .WrongTokenAccount).bind fun _ =>
  (errIf (env.accountDataLen bridge_associated_key == 0 ∧
      ¬ env.cpi (.createAssociatedAccount owner_key bridge_admin_key mint_key
        bridge_associated_key)) .ExternalCallFailed).bind fun _ =>
  (getOr (env.readTokenAccountAmount bridge_associated_key)
      .InvalidAccountData).bind fun bridge_balance =>
  (errIf (owner_associated_key ≠ env.associatedTokenAddress owner_key mint_key)
      .WrongTokenAccount).bind fun _ =>
  (errIf (env.accountDataLen owner_associated_key == 0 ∧
      ¬ env.cpi (.createAssociatedAccount owner_key owner_key mint_key
        owner_associated_key)) .ExternalCallFailed).bind fun _ =>
  (errIf (bridge_balance < amount ∧
      ¬ env.cpi (.mintTo mint_key bridge_associated_key bridge_admin_key
        (amount - bridge_balance))) .ExternalCallFailed).bind fun _ =>
  (errIf (¬ env.cpi (.tokenTransfer bridge_associated_key owner_associated_key
      bridge_admin_key amount)) .ExternalCallFailed).bind fun _ =>
  (errIf ((env.findProgramAddress origin program_id).1 ≠ withdraw_key)
      .WrongNonce).bind fun _ =>
  (st.createAccount env owner_key withdraw_key WITHDRAW_SIZE).bind fun st1 =>
  (getOr ((st1.lookup withdraw_key).bind (fun a => readWithdraw a.data))
      .BorshIoFailed).bind fun w =>
  (errIf (w.is_initialized = true) .AlreadyInUse).bind fun _ =>
  .ok (st1.insert withdraw_key
    ⟨st1.lamports withdraw_key,
     .withdrawData ⟨.FT, some mint_key, amount, origin, owner_key, true⟩⟩)

/-- processor.rs process_withdraw_nft (lines 621-805).  As FT with amount
1 and the collection rule; the extra collection-metadata account is
consumed only when the token's metadata names a collection.  address_to
of the leaf is the collection mint (or absent) and token_id_to the
token's own mint. -/
def process_withdraw_nft (env : Env) (st : ChainState) (program_id : Pubkey)
    (bridge_admin_key mint_key metadata_key owner_key owner_associated_key
      bridge_associated_key withdraw_key collection_metadata_key : Pubkey)
    (seeds signature : Bytes) (recovery_id : Byte) (path : List Bytes)
    (origin : Bytes) (token_seed : Option Bytes)
    (signed_meta : Option SignedMetadata) : Except Err ChainState :=
  (getOr (env.createProgramAddress [seeds] program_id) .InvalidSeeds).bind fun bridge_key =>
  (errIf (bridge_admin_key ≠ bridge_key) .WrongSeeds).bind fun _ =>
  (getOr ((st.lookup bridge_admin_key).bind (fun a => readBridgeAdmin a.data))
      .BorshIoFailed).bind fun bridge_admin =>
  (errIf (¬ bridge_admin.is_initialized) .NotInitialized).bind fun _ =>
  (errIf (metadata_key ≠ env.metadataAccountOf mint_key) .WrongMetadataAccount).bind fun _ =>
  (mint_step env program_id bridge_admin_key token_seed signed_meta
      mint_key metadata_key owner_key).bind fun _ =>
  (getOr (env.readMetadata metadata_key) .BorshIoFailed).bind fun metadata =>
  (collection_name_symbol env metadata collection_metadata_key).bind fun nsc =>
  (getOr (env.secpRecover
      (get_merkle_root (ContentNode.new origin owner_key program_id
        (TransferData.new_nft_transfer mint_key nsc.2.2 (trimNul nsc.1)
          (trimNul nsc.2.1) (trimNul metadata.uri)).get_operation) path)
      recovery_id signature) .InvalidSignature).bind fun key =>
  (errIf (key ≠ bridge_admin.public_key) .WrongSignature).bind fun _ =>
  (errIf (bridge_associated_key ≠ env.associatedTokenAddress bridge_key mint_key)
      .WrongTokenAccount).bind fun _ =>
  (errIf (env.accountDataLen bridge_associated_key == 0 ∧
      ¬ env.cpi (.createAssociatedAccount owner_key bridge_admin_key mint_key
        bridge_associated_key)) .ExternalCallFailed).bind fun _ =>
  (getOr (env.readTokenAccountAmount bridge_associated_key)
      .InvalidAccountData).bind fun bridge_balance =>
  (errIf (owner_associated_key ≠ env.associatedTokenAddress owner_key mint_key)
      .WrongTokenAccount).bind fun _ =>
  (errIf (env.accountDataLen owner_associated_key == 0 ∧
      ¬ env.cpi (.createAssociatedAccount owner_key owner_key mint_key
        owner_associated_key)) .ExternalCallFailed).bind fun _ =>
  (errIf (bridge_balance == 0 ∧
      ¬ env.cpi (.mintTo mint_key bridge_associated_key bridge_admin_key 1))
      .ExternalCallFailed).bind fun _ =>
  (errIf (¬ env.cpi (.tokenTransfer bridge_associated_key owner_associated_key
      bridge_admin_key 1)) .ExternalCallFailed).bind fun _ =>
  (errIf ((env.findProgramAddress origin program_id).1 ≠ withdraw_key)
      .WrongNonce).bind fun _ =>
  (st.createAccount env owner_key withdraw_key WITHDRAW_SIZE).bind fun st1 =>
  (getOr ((st1.lookup withdraw_key).bind (fun a => readWithdraw a.data))
      .BorshIoFailed).bind fun w =>
  (errIf (w.is_initialized = true) .AlreadyInUse).bind fun _ =>
  .ok (st1.insert withdraw_key
    ⟨st1.lamports withdraw_key,
     .withdrawData ⟨.NFT, some mint_key, 1, origin, owner_key, true⟩⟩)

theorem exists_unit_iff {p : Unit → Prop} : (∃ u : Unit, p u) ↔ p () :=
  ⟨fun ⟨u, h⟩ => by cases u; exact h, fun h => ⟨(), h⟩⟩

theorem process_withdraw_native_ok (env : Env) (st : ChainState) (pid : Pubkey)
    (bak owk wk : Pubkey) (seeds sig : Bytes) (rid : Byte) (path : List Bytes)
    (origin : Bytes) (amount : Nat) (st2 : ChainState)
    (h : process_withdraw_native env st pid bak owk wk seeds sig rid path origin amount
      = .ok st2) :
    (env.findProgramAddress origin pid).1 = wk ∧
    st.lookup wk = none ∧
    receiptAt st2 wk = some ⟨.Native, none, amount, origin, owk, true⟩ := by
  simp only [process_withdraw_native, except_bind_ok, exists_unit_iff, errIf_ok, getOr_ok,
    createAccount_eq_ok_iff, ne_eq, not_not, Except.ok.injEq, exists_const,
    Bool.not_eq_true, not_lt] at h
  obtain ⟨bk, hpda, hne, ba, hba, hinit, key, hkey, hsig, hbal, hwpda, st1,
    ⟨hlook, hrent, hst1⟩, w, hw, hwini, hret⟩ := h
  subst hret
  exact ⟨hwpda, hlook, by simp [receiptAt, ChainState.lookup_insert]⟩

theorem process_withdraw_ft_ok (env : Env) (st : ChainState) (pid : Pubkey)
    (bak mk mdk owk oak bakk wk : Pubkey)
    (seeds sig : Bytes) (rid : Byte) (path : List Bytes)
    (origin : Bytes) (amount : Nat) (ts : Option Bytes) (sm : Option SignedMetadata)
    (st2 : ChainState)
    (h : process_withdraw_ft env st pid bak mk mdk owk oak bakk wk seeds sig rid path
      origin amount ts sm = .ok st2) :
    (env.findProgramAddress origin pid).1 = wk ∧
    st.lookup wk = none ∧
    receiptAt st2 wk = some ⟨.FT, some mk, amount, origin, owk, true⟩ := by
  simp only [process_withdraw_ft, except_bind_ok, exists_unit_iff, errIf_ok, getOr_ok,
    createAccount_eq_ok_iff, ne_eq, not_not, Except.ok.injEq, exists_const,
    Bool.not_eq_true, not_lt] at h
  obtain ⟨bk, hpda, hne, ba, hba, hinit, hmeta, hmint, md, hmd, dec, hdec, key, hkey,
    hsig, hassoc1, hcpi1, bb, hbb, hassoc2, hcpi2, hcpi3, hcpi4, hwpda, st1,
    ⟨hlook, hrent, hst1⟩, w, hw, hwini, hret⟩ := h
  subst hret
  exact ⟨hwpda, hlook, by simp [receiptAt, ChainState.lookup_insert]⟩

theorem process_withdraw_nft_ok (env : Env) (st : ChainState) (pid : Pubkey)
    (bak mk mdk owk oak bakk wk cmk : Pubkey)
    (seeds sig : Bytes) (rid : Byte) (path : List Bytes)
    (origin : Bytes) (ts : Option Bytes) (sm : Option SignedMetadata)
    (st2 : ChainState)
    (h : process_withdraw_nft env st pid bak mk mdk owk oak bakk wk cmk seeds sig rid
      path origin ts sm = .ok st2) :
    (env.findProgramAddress origin pid).1 = wk ∧
    st.lookup wk = none ∧
    receiptAt st2 wk = some ⟨.NFT, some mk, 1, origin, owk, true⟩ := by
  simp only [process_withdraw_nft, except_bind_ok, exists_unit_iff, errIf_ok, getOr_ok,
    createAccount_eq_ok_iff, ne_eq, not_not, Except.ok.injEq, exists_const,
    Bool.not_eq_true, not_lt] at h
  obtain ⟨bk, hpda, hne, ba, hba, hinit, hmeta, hmint, md, hmd, nsc, hnsc, key, hkey,
    hsig, hassoc1, hcpi1, bb, hbb, hassoc2, hcpi2, hcpi3, hcpi4, hwpda, st1,
    ⟨hlook, hrent, hst1⟩, w, hw, hwini, hret⟩ := h
  subst hret
  exact ⟨hwpda, hlook, by simp [receiptAt, ChainState.lookup_insert]⟩

/-! ## Claim C1: the withdrawal replay guard -/

/-- C1: a successful WithdrawNative, WithdrawFT or WithdrawNFT carrying
origin o requires the receipt account at PDA(o) to be absent and leaves
exactly one initialized Withdraw receipt there (parts 1-3); once an
account exists at PDA(o), every later withdrawal carrying origin o fails
(parts 4-6, for any environment and arguments — the instruction aborts
and the runtime keeps all account state unchanged), and when every check
before the receipt-creation step passes, the error returned is
AlreadyInUse, the account-already-in-use failure of creating the receipt
at the already-allocated PDA (parts 7-9). -/
theorem C1_withdraw_replay_guard :
    (∀ env st pid bak owk wk seeds sig rid path origin amount st2,
      process_withdraw_native env st pid bak owk wk seeds sig rid path origin amount
        = .ok st2 →
      st.lookup ((env.findProgramAddress origin pid).1) = none ∧
      receiptAt st2 ((env.findProgramAddress origin pid).1)
        = some ⟨.Native, none, amount, origin, owk, true⟩) ∧
    (∀ env st pid bak mk mdk owk oak bakk wk seeds sig rid path origin amount ts sm st2,
      process_withdraw_ft env st pid bak mk mdk owk oak bakk wk seeds sig rid path
        origin amount ts sm = .ok st2 →
      st.lookup ((env.findProgramAddress origin pid).1) = none ∧
      receiptAt st2 ((env.findProgramAddress origin pid).1)
        = some ⟨.FT, some mk, amount, origin, owk, true⟩) ∧
    (∀ env st pid bak mk mdk owk oak bakk wk cmk seeds sig rid path origin ts sm st2,
      process_withdraw_nft env st pid bak mk mdk owk oak bakk wk cmk seeds sig rid path
        origin ts sm = .ok st2 →
      st.lookup ((env.findProgramAddress origin pid).1) = none ∧
      receiptAt st2 ((env.findProgramAddress origin pid).1)
        = some ⟨.NFT, some mk, 1, origin, owk, true⟩) ∧
    (∀ env st pid bak owk wk seeds sig rid path origin amount,
      st.lookup ((env.findProgramAddress origin pid).1) ≠ none →
      ∀ st2, process_withdraw_native env st pid bak owk wk seeds sig rid path origin
        amount ≠ .ok st2) ∧
    (∀ env st pid bak mk mdk owk oak bakk wk seeds sig rid path origin amount ts sm,
      st.lookup ((env.findProgramAddress origin pid).1) ≠ none →
      ∀ st2, process_withdraw_ft env st pid bak mk mdk owk oak bakk wk seeds sig rid
        path origin amount ts sm ≠ .ok st2) ∧
    (∀ env st pid bak mk mdk owk oak bakk wk cmk seeds sig rid path origin ts sm,
      st.lookup ((env.findProgramAddress origin pid).1) ≠ none →
      ∀ st2, process_withdraw_nft env st pid bak mk mdk owk oak bakk wk cmk seeds sig
        rid path origin ts sm ≠ .ok st2) ∧
    (∀ env st pid bak owk wk seeds sig rid path origin amount
      (ba : BridgeAdmin),
      env.createProgramAddress [seeds] pid = some bak →
      (st.lookup bak).bind (fun a => readBridgeAdmin a.data) = some ba →
      ba.is_initialized = true →
      env.secpRecover
        (get_merkle_root (ContentNode.new origin owk pid
          (TransferData.new_native_transfer amount).get_operation) path)
        rid sig = some ba.public_key →
      amount ≤ st.lamports bak →
      (env.findProgramAddress origin pid).1 = wk →
      st.lookup wk ≠ none →
      process_withdraw_native env st pid bak owk wk seeds sig rid path origin amount
        = .error .AlreadyInUse) ∧
    (∀ env st pid bak mk mdk owk oak bakk wk seeds sig rid path origin amount sm
      (ba : BridgeAdmin) (md : TokenMetadata) (dec : Byte) (bb : Nat),
      env.createProgramAddress [seeds] pid = some bak →
      (st.lookup bak).bind (fun a => readBridgeAdmin a.data) = some ba →
      ba.is_initialized = true →
      mdk = env.metadataAccountOf mk →
      env.readMetadata mdk = some md →
      env.readMintDecimals mk = some dec →
      env.secpRecover
        (get_merkle_root (ContentNode.new origin owk pid
          (TransferData.new_ft_transfer mk amount (trimNul md.name)
            (trimNul md.symbol) (trimNul md.uri) dec).get_operation) path)
        rid sig = some ba.public_key →
      bakk = env.associatedTokenAddress bak mk →
      env.readTokenAccountAmount bakk = some bb →
      oak = env.associatedTokenAddress owk mk →
      (∀ c, env.cpi c = true) →
      (env.findProgramAddress origin pid).1 = wk →
      st.lookup wk ≠ none →
      process_withdraw_ft env st pid bak mk mdk owk oak bakk wk seeds sig rid path
        origin amount none sm = .error .AlreadyInUse) ∧
    (∀ env st pid bak mk mdk owk oak bakk wk cmk seeds sig rid path origin sm
      (ba : BridgeAdmin) (md : TokenMetadata) (bb : Nat),
      env.createProgramAddress [seeds] pid = some bak →
      (st.lookup bak).bind (fun a => readBridgeAdmin a.data) = some ba →
      ba.is_initialized = true →
      mdk = env.metadataAccountOf mk →
      env.readMetadata mdk = some md →
      md.collection = none →
      env.secpRecover
        (get_merkle_root (ContentNode.new origin owk pid
          (TransferData.new_nft_transfer mk none (trimNul md.name)
            (trimNul md.symbol) (trimNul md.uri)).get_operation) path)
        rid sig = some ba.public_key →
      bakk = env.associatedTokenAddress bak mk →
      env.readTokenAccountAmount bakk = some bb →
      oak = env.associatedTokenAddress owk mk →
      (∀ c, env.cpi c = true) →
      (env.findProgramAddress origin pid).1 = wk →
      st.lookup wk ≠ none →
      process_withdraw_nft env st pid bak mk mdk owk oak bakk wk cmk seeds sig rid
        path origin none sm = .error .AlreadyInUse) := by
  refine ⟨?_, ?_, ?_, ?_, ?_, ?_, ?_, ?_, ?_⟩
  · intro env st pid bak owk wk seeds sig rid path origin amount st2 h
    have hl := process_withdraw_native_ok env st pid bak owk wk seeds sig rid path
      origin amount st2 h
    rw [hl.1]
    exact ⟨hl.2.1, hl.2.2⟩
  · intro env st pid bak mk mdk owk oak bakk wk seeds sig rid path origin amount ts sm st2 h
    have hl := process_withdraw_ft_ok env st pid bak mk mdk owk oak bakk wk seeds sig
      rid path origin amount ts sm st2 h
    rw [hl.1]
    exact ⟨hl.2.1, hl.2.2⟩
  · intro env st pid bak mk mdk owk oak bakk wk cmk seeds sig rid path origin ts sm st2 h
    have hl := process_withdraw_nft_ok env st pid bak mk mdk owk oak bakk wk cmk seeds
      sig rid path origin ts sm st2 h
    rw [hl.1]
    exact ⟨hl.2.1, hl.2.2⟩
  · intro env st pid bak owk wk seeds sig rid path origin amount hne st2 h
    have hl := process_withdraw_native_ok env st pid bak owk wk seeds sig rid path
      origin amount st2 h
    exact hne (by rw [hl.1]; exact hl.2.1)
  · intro env st pid bak mk mdk owk oak bakk wk seeds sig rid path origin amount ts sm hne st2 h
    have hl := process_withdraw_ft_ok env st pid bak mk mdk owk oak bakk wk seeds sig
      rid path origin amount ts sm st2 h
    exact hne (by rw [hl.1]; exact hl.2.1)
  · intro env st pid bak mk mdk owk oak bakk wk cmk seeds sig rid path origin ts sm hne st2 h
    have hl := process_withdraw_nft_ok env st pid bak mk mdk owk oak bakk wk cmk seeds
      sig rid path origin ts sm st2 h
    exact hne (by rw [hl.1]; exact hl.2.1)
  · intro env st pid bak owk wk seeds sig rid path origin amount ba hpda hadmin hinit
      hsig hbal hwk hex
    obtain ⟨acct, hacct⟩ := Option.ne_none_iff_exists'.mp hex
    simp [process_withdraw_native, getOr, errIf, Except.bind, ChainState.createAccount,
      hpda, hadmin, hinit, hsig, hwk, hacct, Nat.not_lt.mpr hbal]
  · intro env st pid bak mk mdk owk oak bakk wk seeds sig rid path origin amount sm
      ba md dec bb hpda hadmin hinit hmeta hmd hdec hsig hbakk hbb hoak hcpi hwk hex
    subst hmeta
    subst hbakk
    subst hoak
    subst hwk
    obtain ⟨acct, hacct⟩ := Option.ne_none_iff_exists'.mp hex
    simp [process_withdraw_ft, mint_step, getOr, errIf, Except.bind,
      ChainState.createAccount, hpda, hadmin, hinit, hmd, hdec, hsig,
      hbb, hcpi, hacct]
  · intro env st pid bak mk mdk owk oak bakk wk cmk seeds sig rid path origin sm
      ba md bb hpda hadmin hinit hmeta hmd hcol hsig hbakk hbb hoak hcpi hwk hex
    subst hmeta
    subst hbakk
    subst hoak
    subst hwk
    obtain ⟨acct, hacct⟩ := Option.ne_none_iff_exists'.mp hex
    simp [process_withdraw_nft, mint_step, collection_name_symbol, getOr, errIf,
      Except.bind, ChainState.createAccount, hpda, hadmin, hinit, hmd, hcol,
      hsig, hbb, hcpi, hacct]

def ownerKeyFix : Pubkey := List.replicate 32 ⟨4, by decide⟩

def withdrawKeyFix : Pubkey := List.replicate 32 ⟨5, by decide⟩

def originFix : Bytes := List.replicate 32 ⟨6, by decide⟩

/-- A concrete bridge environment: the admin PDA derives to bridgeKeyFix,
the origin PDA to withdrawKeyFix, rent is 5 lamports, recovery yields the
operator key. -/
def envW : Env :=
  { envFix with
    createProgramAddress := fun _ _ => some bridgeKeyFix,
    findProgramAddress := fun _ _ => (withdrawKeyFix, ⟨255, by decide⟩),
    rentMinimumBalance := fun _ => 5 }

/-- A pre-state with an initialized bridge admin holding 1000 lamports and
an owner account holding 100. -/
def stPre : ChainState :=
  ⟨[(bridgeKeyFix, ⟨1000, .bridgeAdminData bridgeAdminFix⟩),
    (ownerKeyFix, ⟨100, .rawZero 0⟩)]⟩

def c1post : ChainState :=
  (process_withdraw_native envW stPre c3zero32 bridgeKeyFix ownerKeyFix withdrawKeyFix
    c3zero32 sigFix 0 [] originFix 7).toOption.getD ⟨[]⟩

theorem C1_withdraw_replay_guard_witness :
    stPre.lookup withdrawKeyFix = none ∧
    receiptAt c1post withdrawKeyFix
      = some ⟨.Native, none, 7, originFix, ownerKeyFix, true⟩ ∧
    process_withdraw_native envW c1post c3zero32 bridgeKeyFix ownerKeyFix
      withdrawKeyFix c3zero32 sigFix 0 [] originFix 7 = .error .AlreadyInUse := by
  have hok : process_withdraw_native envW stPre c3zero32 bridgeKeyFix ownerKeyFix
      withdrawKeyFix c3zero32 sigFix 0 [] originFix 7 = .ok c1post := by decide
  have hA := C1_withdraw_replay_guard.1 envW stPre c3zero32 bridgeKeyFix ownerKeyFix
    withdrawKeyFix c3zero32 sigFix 0 [] originFix 7 c1post hok
  refine ⟨by decide, hA.2, ?_⟩
  exact C1_withdraw_replay_guard.2.2.2.2.2.2.1 envW c1post c3zero32 bridgeKeyFix
    ownerKeyFix withdrawKeyFix c3zero32 sigFix 0 [] originFix 7 bridgeAdminFix
    rfl (by decide) rfl rfl (by decide) rfl (by decide)

/-! ## Claim C2: the deposit / commission-charge coupling -/

/-- lib CommissionArgs: the ChargeCommission payload. -/
structure CommissionArgs where
  token : CommissionTokenKind
  deposit_token : TokenType
  deposit_token_amount : Nat
  deriving DecidableEq, Repr

/-- The outcome of decoding a transaction instruction's data as a
CommissionInstruction (try_from_slice): a ChargeCommission with its
arguments, some other variant of the instruction union, or bytes that do
not decode (a borsh error, propagated as such by the question mark). -/
inductive InstrData where
  | chargeCommission (args : CommissionArgs)
  | otherInstruction
  | malformed
  deriving DecidableEq, Repr

/-- One entry of the instructions sysvar: target program, referenced
account keys in order, instruction data. -/
structure InstrInfo where
  program_id : Pubkey
  accounts : List Pubkey
  data : InstrData
  deriving DecidableEq, Repr

/-- The instructions sysvar of the executing transaction; current_index
is the u16 returned by load_current_index_checked. -/
structure SysvarInstructions where
  current_index : Nat
  instructions : List InstrInfo
  deriving DecidableEq, Repr

/-- The tail of verify_commission_charged (lines 827-835): decode the
previous instruction's data and require a ChargeCommission whose
(deposit_token, deposit_token_amount) equals the expected pair; any other
decoded value gives WrongCommissionArguments, undecodable bytes give the
borsh error. -/
def charge_args_check (d : InstrData) (token : TokenType) (amount : Nat) :
    Except Err Unit :=
  match d with
  | .malformed => .error .BorshIoFailed
  | .otherInstruction => .error .WrongCommissionArguments
  | .chargeCommission args =>
    if args.deposit_token = token ∧ args.deposit_token_amount = amount then .ok ()
    else .error .WrongCommissionArguments

/-- processor.rs verify_commission_charged (lines 807-836).  The index
current_index - 1 is u16 arithmetic, which in the on-chain release build
wraps (hence the mod-2^16 formula); the accounts[0] access panics when
the instruction carries no accounts (RuntimePanic); the commission-admin
PDA is derived with the BRIDGE program id, exactly as the source does. -/
def verify_commission_charged (env : Env) (program_id : Pubkey)
    (bridge_admin_key : Pubkey) (sysvar : SysvarInstructions)
    (admin : BridgeAdmin) (token : TokenType) (amount : Nat) : Except Err Unit :=
  (getOr (sysvar.instructions.get? ((sysvar.current_index % 65536 + 65535) % 65536))
      .SysvarFailure).bind fun instr =>
  (errIf (instr.program_id ≠ admin.commission_program) .WrongCommissionProgram).bind fun _ =>
  (getOr (env.createProgramAddress [COMMISSION_ADMIN_PDA_SEED, bridge_admin_key]
      program_id) .InvalidSeeds).bind fun commission_key =>
  (getOr instr.accounts.head? .RuntimePanic).bind fun acc0 =>
  (errIf (commission_key ≠ acc0) .WrongCommissionAccount).bind fun _ =>
  charge_args_check instr.data token amount

/-- processor.rs process_deposit_native (lines 162-206).  The commission
check is performed for (TokenType::Native, amount); the deposit then
moves amount lamports from the owner to the BridgeAdmin PDA through the
system program (the owner must hold them). -/
def process_deposit_native (env : Env) (st : ChainState) (program_id : Pubkey)
    (bridge_admin_key owner_key : Pubkey) (sysvar : SysvarInstructions)
    (seeds network receiver : Bytes) (amount : Nat) : Except Err ChainState :=
  (getOr (env.createProgramAddress [seeds] program_id) .InvalidSeeds).bind fun bridge_key =>
  (errIf (bridge_admin_key ≠ bridge_key) .WrongSeeds).bind fun _ =>
  (getOr ((st.lookup bridge_admin_key).bind (fun a => readBridgeAdmin a.data))
      .BorshIoFailed).bind fun bridge_admin =>
  (errIf (¬ bridge_admin.is_initialized) .NotInitialized).bind fun _ =>
  (verify_commission_charged env program_id bridge_admin_key sysvar bridge_admin
      .Native amount).bind fun _ =>
  (errIf (st.lamports owner_key < amount) .ExternalCallFailed).bind fun _ =>
  let st1 := st.setLamports owner_key (st.lamports owner_key - amount)
  .ok (st1.setLamports bridge_admin_key (st1.lamports bridge_admin_key + amount))

/-- processor.rs process_deposit_ft (lines 208-287).  NOTE: the source
passes lib::TokenType::Native (not FT) to verify_commission_charged
(line 241).  Token movements (create associated account, burn for a
mirror mint with token_seed, transfer otherwise) happen in collaborator
programs; the bridge's own stored state is unchanged. -/
def process_deposit_ft (env : Env) (st : ChainState) (program_id : Pubkey)
    (bridge_admin_key mint_key owner_associated_key bridge_associated_key
      owner_key : Pubkey)
    (sysvar : SysvarInstructions) (seeds network receiver : Bytes)
    (amount : Nat) (token_seed : Option Bytes) : Except Err ChainState :=
  (getOr (env.createProgramAddress [seeds] program_id) .InvalidSeeds).bind fun bridge_key =>
  (errIf (bridge_admin_key ≠ bridge_key) .WrongSeeds).bind fun _ =>
  (getOr ((st.lookup bridge_admin_key).bind (fun a => readBridgeAdmin a.data))
      .BorshIoFailed).bind fun bridge_admin =>
  (errIf (¬ bridge_admin.is_initialized) .NotInitialized).bind fun _ =>
  (verify_commission_charged env program_id bridge_admin_key sysvar bridge_admin
      .Native amount).bind fun _ =>
  (errIf (bridge_associated_key ≠ env.associatedTokenAddress bridge_key mint_key)
      .WrongTokenAccount).bind fun _ =>
  (errIf (env.accountDataLen bridge_associated_key == 0 ∧
      ¬ env.cpi (.createAssociatedAccount owner_key bridge_admin_key mint_key
        bridge_associated_key)) .ExternalCallFailed).bind fun _ =>
  (match token_seed with
   | some ts =>
     (errIf ((env.findProgramAddress ts program_id).1 ≠ mint_key)
         .WrongTokenSeed).bind fun _ =>
     errIf (¬ env.cpi (.tokenBurn owner_associated_key mint_key owner_key amount))
       .ExternalCallFailed
   | none =>
     errIf (¬ env.cpi (.tokenTransfer owner_associated_key bridge_associated_key
       owner_key amount)) .ExternalCallFailed).bind fun _ =>
  .ok st

/-- processor.rs process_deposit_nft (lines 289-366): as FT with amount
1; the commission check is for (TokenType::Native, 1) (line 321). -/
def process_deposit_nft (env : Env) (st : ChainState) (program_id : Pubkey)
    (bridge_admin_key mint_key owner_associated_key bridge_associated_key
      owner_key : Pubkey)
    (sysvar : SysvarInstructions) (seeds network receiver : Bytes)
    (token_seed : Option Bytes) : Except Err ChainState :=
  (getOr (env.createProgramAddress [seeds] program_id) .InvalidSeeds).bind fun bridge_key =>
  (errIf (bridge_admin_key ≠ bridge_key) .WrongSeeds).bind fun _ =>
  (getOr ((st.lookup bridge_admin_key).bind (fun a => readBridgeAdmin a.data))
      .BorshIoFailed).bind fun bridge_admin =>
  (errIf (¬ bridge_admin.is_initialized) .NotInitialized).bind fun _ =>
  (verify_commission_charged env program_id bridge_admin_key sysvar bridge_admin
      .Native 1).bind fun _ =>
  (errIf (bridge_associated_key ≠ env.associatedTokenAddress bridge_key mint_key)
      .WrongTokenAccount).bind fun _ =>
  (errIf (env.accountDataLen bridge_associated_key == 0 ∧
      ¬ env.cpi (.createAssociatedAccount owner_key bridge_admin_key mint_key
        bridge_associated_key)) .ExternalCallFailed).bind fun _ =>
  (match token_seed with
   | some ts =>
     (errIf ((env.findProgramAddress ts program_id).1 ≠ mint_key)
         .WrongTokenSeed).bind fun _ =>
     errIf (¬ env.cpi (.tokenBurn owner_associated_key mint_key owner_key 1))
       .ExternalCallFailed
   | none =>
     errIf (¬ env.cpi (.tokenTransfer owner_associated_key bridge_associated_key
       owner_key 1)) .ExternalCallFailed).bind fun _ =>
  .ok st

theorem charge_args_check_ok (d : InstrData) (token : TokenType) (amount : Nat)
    (u : Unit) :
    charge_args_check d token amount = .ok u ↔
    ∃ args, d = .chargeCommission args ∧ args.deposit_token = token ∧
      args.deposit_token_amount = amount := by
  cases d with
  | malformed => simp [charge_args_check]
  | otherInstruction => simp [charge_args_check]
  | chargeCommission args =>
    simp only [charge_args_check]
    split <;> simp_all

def mintFix : Pubkey := List.replicate 32 ⟨12, by decide⟩

/-- A deposit environment: the two-seed commission derivation yields
commissionKeyFix, the single-seed bridge derivation yields bridgeKeyFix. -/
def envD : Env :=
  { envFix with
    createProgramAddress := fun seedsList _ =>
      if seedsList.length == 2 then some commissionKeyFix else some bridgeKeyFix }

/-- A preceding charge instruction carrying (Native, 5). -/
def chargeInstrNative : InstrInfo :=
  ⟨c3zero32, [commissionKeyFix], .chargeCommission ⟨.Native, .Native, 5⟩⟩

/-- A preceding charge instruction carrying (FT, 5). -/
def chargeInstrFT : InstrInfo :=
  ⟨c3zero32, [commissionKeyFix], .chargeCommission ⟨.Native, .FT, 5⟩⟩

def sysvarNativeCharge : SysvarInstructions := ⟨1, [chargeInstrNative]⟩

def sysvarFTCharge : SysvarInstructions := ⟨1, [chargeInstrFT]⟩

/-- C2 counterexample: a DepositFT of amount 5 SUCCEEDS when the
preceding charge carries deposit kind Native (the claim requires kind FT
for an FT deposit), and FAILS with WrongCommissionArguments when the
preceding charge carries the kind-FT pair the claim calls matching: the
source checks every deposit against TokenType::Native. -/
theorem C2_counterexample :
    process_deposit_ft envD stPre c3zero32 bridgeKeyFix mintFix c3zero32 c3zero32
      ownerKeyFix sysvarNativeCharge c3zero32 [] [] 5 none = .ok stPre ∧
    (sysvarNativeCharge.instructions.get? (sysvarNativeCharge.current_index - 1)).map
      InstrInfo.data = some (.chargeCommission ⟨.Native, .Native, 5⟩) ∧
    (TokenType.Native ≠ TokenType.FT) ∧
    process_deposit_ft envD stPre c3zero32 bridgeKeyFix mintFix c3zero32 c3zero32
      ownerKeyFix sysvarFTCharge c3zero32 [] [] 5 none
      = .error .WrongCommissionArguments := by
  refine ⟨by decide, by decide, by decide, by decide⟩

/-- C2 (amended): a deposit succeeds only if the instruction at the
(u16-wrapped) position current_index - 1 of the same transaction targets
the stored BridgeAdmin.commission_program, its first referenced account
equals the commission-admin PDA the bridge derives, and its data decodes
to ChargeCommission whose (deposit_token, deposit_token_amount) is
exactly (Native, amount) for DepositNative AND for DepositFT, and
(Native, 1) for DepositNFT — the source checks every deposit kind
against TokenType::Native — and the three mismatches fail with
WrongCommissionProgram, WrongCommissionAccount and
WrongCommissionArguments respectively. -/
theorem C2_deposit_commission_coupling :
    (∀ env pid bk sysvar admin token amount (u : Unit),
      verify_commission_charged env pid bk sysvar admin token amount = .ok u ↔
      ∃ instr, sysvar.instructions.get?
          ((sysvar.current_index % 65536 + 65535) % 65536) = some instr ∧
        instr.program_id = admin.commission_program ∧
        ∃ ck, env.createProgramAddress [COMMISSION_ADMIN_PDA_SEED, bk] pid = some ck ∧
          instr.accounts.head? = some ck ∧
          ∃ args, instr.data = .chargeCommission args ∧
            args.deposit_token = token ∧ args.deposit_token_amount = amount) ∧
    (∀ env st pid bak owk sysvar seeds network receiver amount st2,
      process_deposit_native env st pid bak owk sysvar seeds network receiver amount
        = .ok st2 →
      ∃ ba, ((st.lookup bak).bind fun a => readBridgeAdmin a.data) = some ba ∧
        verify_commission_charged env pid bak sysvar ba .Native amount = .ok ()) ∧
    (∀ env st pid bak mk oak bakk owk sysvar seeds network receiver amount ts st2,
      process_deposit_ft env st pid bak mk oak bakk owk sysvar seeds network receiver
        amount ts = .ok st2 →
      ∃ ba, ((st.lookup bak).bind fun a => readBridgeAdmin a.data) = some ba ∧
        verify_commission_charged env pid bak sysvar ba .Native amount = .ok ()) ∧
    (∀ env st pid bak mk oak bakk owk sysvar seeds network receiver ts st2,
      process_deposit_nft env st pid bak mk oak bakk owk sysvar seeds network receiver
        ts = .ok st2 →
      ∃ ba, ((st.lookup bak).bind fun a => readBridgeAdmin a.data) = some ba ∧
        verify_commission_charged env pid bak sysvar ba .Native 1 = .ok ()) ∧
    (∀ env pid bk sysvar admin token amount instr,
      sysvar.instructions.get? ((sysvar.current_index % 65536 + 65535) % 65536)
        = some instr →
      instr.program_id ≠ admin.commission_program →
      verify_commission_charged env pid bk sysvar admin token amount
        = .error .WrongCommissionProgram) ∧
    (∀ env pid bk sysvar admin token amount instr ck acc0,
      sysvar.instructions.get? ((sysvar.current_index % 65536 + 65535) % 65536)
        = some instr →
      instr.program_id = admin.commission_program →
      env.createProgramAddress [COMMISSION_ADMIN_PDA_SEED, bk] pid = some ck →
      instr.accounts.head? = some acc0 →
      ck ≠ acc0 →
      verify_commission_charged env pid bk sysvar admin token amount
        = .error .WrongCommissionAccount) ∧
    (∀ env pid bk sysvar admin token amount instr ck args,
      sysvar.instructions.get? ((sysvar.current_index % 65536 + 65535) % 65536)
        = some instr →
      instr.program_id = admin.commission_program →
      env.createProgramAddress [COMMISSION_ADMIN_PDA_SEED, bk] pid = some ck →
      instr.accounts.head? = some ck →
      instr.data = .chargeCommission args →
      ¬ (args.deposit_token = token ∧ args.deposit_token_amount = amount) →
      verify_commission_charged env pid bk sysvar admin token amount
        = .error .WrongCommissionArguments) := by
  refine ⟨?_, ?_, ?_, ?_, ?_, ?_, ?_⟩
  · intro env pid bk sysvar admin token amount u
    simp only [verify_commission_charged, except_bind_ok, errIf_ok, getOr_ok,
      exists_unit_iff, charge_args_check_ok, ne_eq, not_not]
    constructor
    · rintro ⟨instr, h1, h2, ck, h3, acc0, h4, h5, rest⟩
      subst h5
      exact ⟨instr, h1, h2, ck, h3, h4, rest⟩
    · rintro ⟨instr, h1, h2, ck, h3, h4, rest⟩
      exact ⟨instr, h1, h2, ck, h3, ck, h4, rfl, rest⟩
  · intro env st pid bak owk sysvar seeds network receiver amount st2 h
    simp only [process_deposit_native, except_bind_ok, errIf_ok, getOr_ok,
      exists_unit_iff, ne_eq, not_not] at h
    obtain ⟨bk2, hpda, hne, ba, hba, hinit, hver, hrest⟩ := h
    exact ⟨ba, hba, hver⟩
  · intro env st pid bak mk oak bakk owk sysvar seeds network receiver amount ts st2 h
    simp only [process_deposit_ft, except_bind_ok, errIf_ok, getOr_ok,
      exists_unit_iff, ne_eq, not_not] at h
    obtain ⟨bk2, hpda, hne, ba, hba, hinit, hver, hrest⟩ := h
    exact ⟨ba, hba, hver⟩
  · intro env st pid bak mk oak bakk owk sysvar seeds network receiver ts st2 h
    simp only [process_deposit_nft, except_bind_ok, errIf_ok, getOr_ok,
      exists_unit_iff, ne_eq, not_not] at h
    obtain ⟨bk2, hpda, hne, ba, hba, hinit, hver, hrest⟩ := h
    exact ⟨ba, hba, hver⟩
  · intro env pid bk sysvar admin token amount instr h1 h2
    simp only [verify_commission_charged, getOr, errIf, Except.bind, h1]
    simp [h2]
  · intro env pid bk sysvar admin token amount instr ck acc0 h1 h2 h3 h4 h5
    simp only [verify_commission_charged, getOr, errIf, Except.bind, h1]
    simp [h2, h3, h4, h5]
  · intro env pid bk sysvar admin token amount instr ck args h1 h2 h3 h4 h5 h6
    simp only [verify_commission_charged, getOr, errIf, Except.bind, h1]
    simp [charge_args_check, h2, h3, h4, h5, h6]

theorem C2_deposit_commission_coupling_witness :
    ∃ ba, ((stPre.lookup bridgeKeyFix).bind fun a => readBridgeAdmin a.data)
        = some ba ∧
      verify_commission_charged envD c3zero32 bridgeKeyFix sysvarNativeCharge ba
        .Native 5 = .ok () :=
  C2_deposit_commission_coupling.2.2.1 envD stPre c3zero32 bridgeKeyFix mintFix
    c3zero32 c3zero32 ownerKeyFix sysvarNativeCharge c3zero32 [] [] 5 none stPre
    (by decide)
